import Mathlib

/-! # TWQRP payload generator (`package twqrp`, `generator.go`)

A shallow embedding of the generator and the properties of its
construction, setter and render operations.

Modelling conventions.

* A Go `string` is a Lean `String`, that is a Go string holding valid UTF-8.
  Its bytes are given by `utf8Bytes`; `len s` is the number of those bytes and
  Go's `<` on strings is the lexicographic order of the byte sequences.
* A Go `int` is a Lean `Int`; the only arithmetic in the package is `a*100`
  with `1 ≤ a ≤ 99999`, which cannot overflow.
* An `error` is the message given to `errors.New`; `Option error` is a Go
  error value with `none` for `nil`.
* `*G` receivers are passed explicitly: a method that mutates its receiver
  returns the new state.
* A `map[string]string` is a list of entries with pairwise distinct keys.
  The order of the list is not observable through `SortedString`, which
  sorts the keys; `String()` takes the order of its `range` loop as an
  argument.
* `sort.Strings`, `strings.Join`, `strconv.Itoa`, `fmt.Sprintf` and the two
  regular expressions are modelled by the functions below; a `time.Time` is
  given by the results of the two methods the package calls on it.
-/

namespace Twqrp

/-! ## Strings -/

/-- Go error values: the message passed to `errors.New`. -/
abbrev error := String

/-- UTF-8 encoding of one code point, as the list of its bytes. -/
def utf8EncodeRune (c : Char) : List Nat :=
  let v := c.toNat
  if v < 128 then [v]
  else if v < 2048 then [192 + v / 64, 128 + v % 64]
  else if v < 65536 then [224 + v / 4096, 128 + v / 64 % 64, 128 + v % 64]
  else [240 + v / 262144, 128 + v / 4096 % 64, 128 + v / 64 % 64, 128 + v % 64]

/-- Bytes of a sequence of code points. -/
def utf8BytesOf : List Char → List Nat
  | [] => []
  | c :: cs => utf8EncodeRune c ++ utf8BytesOf cs

/-- Bytes of a Go string. -/
def utf8Bytes (s : String) : List Nat := utf8BytesOf s.data

/-- Go's builtin `len` on a string: the number of bytes. -/
def len (s : String) : Nat := (utf8Bytes s).length

/-- Lexicographic comparison of byte sequences. -/
def bytesLess : List Nat → List Nat → Bool
  | _, [] => false
  | [], _ :: _ => true
  | a :: as, b :: bs =>
    if a < b then true else if b < a then false else bytesLess as bs

/-- Go's `a < b` on strings (byte-wise lexicographic). -/
def strLess (a b : String) : Bool := bytesLess (utf8Bytes a) (utf8Bytes b)

/-- Go's `a <= b` on strings, as a relation. -/
def strLE (a b : String) : Prop := strLess b a = false

instance strLE_decidable : DecidableRel strLE := fun a b =>
  inferInstanceAs (Decidable (strLess b a = false))

/-- Model of `sort.Strings`: the keys in increasing order. -/
def sortStrings (keys : List String) : List String :=
  List.insertionSort strLE keys

/-- Model of `strings.Join`. -/
def Join : List String → String → String
  | [], _ => ""
  | [a], _ => a
  | a :: b :: rest, sep => a ++ sep ++ Join (b :: rest) sep

/-- Model of `strconv.Itoa` and of the `%d` verb: plain decimal text,
with a leading `-` for negative numbers. -/
def Itoa (v : Int) : String :=
  match v with
  | Int.ofNat n => Nat.repr n
  | Int.negSucc n => "-" ++ Nat.repr (n + 1)

/-- Left padding with `'0'` up to `wid` code points (no truncation). -/
def zeroPad (wid : Nat) (s : String) : String :=
  String.mk (List.replicate (wid - s.length) '0') ++ s

/-- Model of `fmt.Sprintf("%0<wid>s", s)`: the width counts code points and
the padding is done with zeros on the left. -/
def sprintfZeroS (wid : Nat) (s : String) : String := zeroPad wid s

/-- Model of `fmt.Sprintf("%0<wid>d", v)`: the sign comes first and takes
one of the `wid` positions, the digits are padded with zeros. -/
def sprintfZeroD (wid : Nat) (v : Int) : String :=
  if v < 0 then "-" ++ zeroPad (wid - 1) (Nat.repr v.natAbs)
  else zeroPad wid (Nat.repr v.natAbs)

/-! ## Regular expressions -/

/-- The character class `[0-9]`. -/
def isDigit09 (c : Char) : Bool := decide (48 ≤ c.toNat) && decide (c.toNat ≤ 57)

/-- Matcher for `^[0-9]{lo,hi}$` on the whole text: every code point is in
the class and their number is between `lo` and `hi`. -/
def matchDigits : Nat → Nat → List Char → Bool
  | lo, _, [] => decide (lo = 0)
  | _, 0, _ :: _ => false
  | lo, hi + 1, c :: cs => isDigit09 c && matchDigits (lo - 1) hi cs

/-- The pattern `^[0-9]{3}$`. -/
def re3Digit (s : String) : Bool := matchDigits 3 3 s.data

/-- The pattern `^[0-9]{1,16}$`. -/
def reAccount (s : String) : Bool := matchDigits 1 16 s.data

/-! ## Maps -/

/-- Entries of a `map[string]string`. -/
abbrev Entries := List (String × String)

/-- Assignment `m[k] = v` on entries: overwrite in place or add. -/
def Entries.set : Entries → String → String → Entries
  | [], k, v => [(k, v)]
  | (k', v') :: rest, k, v =>
    if k' = k then (k, v) :: rest else (k', v') :: Entries.set rest k v

/-- Index expression `m[k]` on entries: the stored value, or the zero value
`""` when the key is absent. -/
def Entries.get : Entries → String → String
  | [], _ => ""
  | (k', v') :: rest, k => if k' = k then v' else Entries.get rest k

/-- Keys of the entries, in iteration order. -/
def Entries.keys (es : Entries) : List String := es.map Prod.fst

theorem Entries.mem_keys_set (es : Entries) (k v x : String) :
    x ∈ (Entries.set es k v).keys ↔ x = k ∨ x ∈ es.keys := by
  induction es with
  | nil => simp [Entries.set, Entries.keys]
  | cons e rest ih =>
    obtain ⟨k', v'⟩ := e
    unfold Entries.set
    by_cases h : k' = k
    · subst h
      simp [Entries.keys]
    · simp only [h, if_false]
      simp only [Entries.keys, List.map_cons, List.mem_cons] at ih ⊢
      rw [ih]
      tauto

theorem Entries.nodup_set (es : Entries) (k v : String) (h : es.keys.Nodup) :
    (Entries.set es k v).keys.Nodup := by
  induction es with
  | nil => simp [Entries.set, Entries.keys]
  | cons e rest ih =>
    obtain ⟨k', v'⟩ := e
    have h' : k' ∉ Entries.keys rest ∧ (Entries.keys rest).Nodup := by
      simpa [Entries.keys] using h
    unfold Entries.set
    by_cases hk : k' = k
    · subst hk
      simpa [Entries.keys] using h
    · simp only [hk, if_false]
      have hmem := Entries.mem_keys_set rest k v k'
      have ih' := ih h'.2
      simp only [Entries.keys, List.map_cons, List.nodup_cons] at hmem ih' ⊢
      refine ⟨?_, ih'⟩
      rw [hmem]
      rintro (h1 | h1)
      · exact hk h1
      · exact h'.1 h1

/-- A Go `map[string]string`: entries with pairwise distinct keys. -/
structure StrMap where
  /-- The entries, in some iteration order. -/
  entries : Entries
  /-- No key occurs twice. -/
  nodup : entries.keys.Nodup

/-- The empty map literal `map[string]string{}`. -/
def StrMap.empty : StrMap := ⟨[], List.nodup_nil⟩

/-- Assignment `m[k] = v`. -/
def StrMap.set (m : StrMap) (k v : String) : StrMap :=
  ⟨m.entries.set k v, Entries.nodup_set m.entries k v m.nodup⟩

/-- Index expression `m[k]`. -/
def StrMap.get (m : StrMap) (k : String) : String := m.entries.get k

/-- Keys of the map, as a `range` loop visits them. -/
def StrMap.keys (m : StrMap) : List String := m.entries.keys

/-! ## The generator -/

/-- The generator `G`. -/
structure G where
  /-- Service name chosen by the vendor. -/
  Name : String
  /-- Country code. -/
  country : Int
  /-- Service type. -/
  typ : Int
  /-- The parameters, keyed by the decimal text of the field number. -/
  params : StrMap
  /-- Whether the payer may change the content. -/
  Mutable : Bool

/-- `NewEmpty(serviceType)`. -/
def NewEmpty (serviceType : Int) : G :=
  { Name := "", country := 158, typ := serviceType, params := StrMap.empty, Mutable := false }

/-- `g.SetParam(key, val)`. -/
def SetParam (g : G) (key : Int) (val : String) : G :=
  { g with params := g.params.set (Itoa key) val }

/-- `g.add(key, tmpl, args...)`, given the text `fmt.Sprintf(tmpl, args...)`. -/
def add (g : G) (key : Int) (formatted : String) : G :=
  SetParam g key formatted

/-- `NewTransfer(bankCode, account)`: the pair of results `(ret, err)`,
with `none` for a nil pointer and for a nil error. -/
def NewTransfer (bankCode account : String) : Option G × Option error :=
  if !re3Digit bankCode then
    (none, some "twqrp: invalid bank code")
  else
    let err : Option error :=
      if !reAccount account then some "twqrp: invalid account" else none
    let ret : G :=
      { Name := "", country := 158, typ := 2, params := StrMap.empty, Mutable := false }
    let ret := SetParam ret 5 bankCode
    let ret := add ret 6 (sprintfZeroS 16 account)
    (some ret, err)

/-- The text of one field, `prefix+k+"="+g.params[k]`. -/
def token (pfx : String) (m : StrMap) (k : String) : String :=
  pfx ++ k ++ "=" ++ m.get k

/-- The part `TWQRP://%s/%03d/%02d/V1?` common to both renderings. -/
def header (g : G) : String :=
  "TWQRP://" ++ g.Name ++ "/" ++ sprintfZeroD 3 g.country ++ "/" ++
    sprintfZeroD 2 g.typ ++ "/V1?"

/-- `g.SortedString()`. -/
def SortedString (g : G) : String :=
  let pfx := if g.Mutable then "M" else "D"
  let keys := sortStrings g.params.keys
  let arr := keys.map (fun k => token pfx g.params k)
  header g ++ Join arr "&"

/-- `g.SortedString()`, when the `range` loop that collects the keys visits
the entries in the order `it` (some arrangement of the entries of the map). -/
def SortedStringIter (g : G) (it : Entries) : String :=
  let pfx := if g.Mutable then "M" else "D"
  let keys := sortStrings it.keys
  let arr := keys.map (fun k => token pfx g.params k)
  header g ++ Join arr "&"

/-- The contents of the buffer of `g.String()` before the final slice, when
the `range` loop visits the entries in the order `it`. -/
def stringBuf (g : G) (it : Entries) : String :=
  let pfx := if g.Mutable then "M" else "D"
  it.foldl (fun buf kv => buf ++ (pfx ++ kv.1 ++ "=" ++ kv.2 ++ "&")) (header g)

/-- The slice `string(b[:len(b)-1])` of a text that ends in a one-byte code
point (the buffer of `String()` always ends in `&` or `?`). -/
def dropLastByte (s : String) : String := String.mk s.data.dropLast

/-- `g.String()`, when the `range` loop over `g.params` visits the entries
in the order `it` (some arrangement of the entries of the map). -/
def StringIter (g : G) (it : Entries) : String :=
  dropLastByte (stringBuf g it)

/-- `g.must(err)`: a panic with value `e` is `Except.error e`. -/
def must (g : G) (err : Option error) : Except error G :=
  match err with
  | some e => Except.error e
  | none => Except.ok g

/-- `g.TryCountry(code)`: the generator after the call and the error. -/
def TryCountry (g : G) (code : Int) : G × Option error :=
  if code < 1 ∨ code > 999 then (g, some "twqrp: invalid country code")
  else ({ g with country := code }, none)

/-- `g.Country(code)`. -/
def Country (g : G) (code : Int) : Except error G :=
  must (TryCountry g code).1 (TryCountry g code).2

/-- `g.TryAmount(a)`: the generator after the call and the error. -/
def TryAmount (g : G) (a : Int) : G × Option error :=
  if a < 1 ∨ a > 99999 then (g, some "twqrp: invalid amount")
  else (add g 1 (Itoa (a * 100)), none)

/-- `g.Amount(a)`. -/
def Amount (g : G) (a : Int) : Except error G :=
  must (TryAmount g a).1 (TryAmount g a).2

/-- `g.TryNote(n)`: the generator after the call and the error. -/
def TryNote (g : G) (n : String) : G × Option error :=
  if len n > 19 then (g, some "twqrp: invalid note")
  else (SetParam g 9 n, none)

/-- `g.Note(n)`. -/
def Note (g : G) (n : String) : Except error G :=
  must (TryNote g n).1 (TryNote g n).2

/-- `g.TryCurrency(n)`: the generator after the call and the error. -/
def TryCurrency (g : G) (n : String) : G × Option error :=
  if !re3Digit n then (g, some "twqrp: invalid currency code")
  else (SetParam g 10 n, none)

/-- `g.Currency(n)`. -/
def Currency (g : G) (n : String) : Except error G :=
  must (TryCurrency g n).1 (TryCurrency g n).2

/-- A `time.Time` value, given by the two observations the package makes of
it: the result of `t.IsZero()` and the text `t.Format("20060102150405")`. -/
structure Time where
  /-- The result of `t.IsZero()`. -/
  IsZero : Bool
  /-- The result of `t.Format("20060102150405")`. -/
  Format : String

/-- `g.TryQRDue(t)`: the generator after the call and the error. -/
def TryQRDue (g : G) (t : Time) : G × Option error :=
  if t.IsZero then (g, some "twqrp: invalid qrcode due time")
  else (SetParam g 12 t.Format, none)

/-- `g.QRDue(t)`. -/
def QRDue (g : G) (t : Time) : Except error G :=
  must (TryQRDue g t).1 (TryQRDue g t).2

/-! ## Vocabulary of the statements -/

/-- The text consists of ASCII digits only, at least `lo` and at most `hi`
of them. -/
def IsDigits (lo hi : Nat) (s : String) : Prop :=
  lo ≤ s.length ∧ s.length ≤ hi ∧ ∀ c ∈ s.data, c.isDigit = true

instance IsDigits.decidable (lo hi : Nat) (s : String) : Decidable (IsDigits lo hi s) := by
  unfold IsDigits
  infer_instance

/-- The number a decimal text denotes (each code point read as a digit). -/
def decimalValue (s : String) : Nat :=
  s.data.foldl (fun a c => 10 * a + (c.toNat - 48)) 0

/-- One step a caller can take on a generator: `SetParam`, an assignment to
`Name` or to `Mutable`, or one of the fallible setters. -/
inductive Op where
  /-- `g.SetParam(key, val)`. -/
  | setParam (key : Int) (val : String)
  /-- `g.Name = name`. -/
  | setName (name : String)
  /-- `g.Mutable = m`. -/
  | setMutable (m : Bool)
  /-- `g.TryCountry(code)`. -/
  | tryCountry (code : Int)
  /-- `g.TryAmount(a)`. -/
  | tryAmount (a : Int)
  /-- `g.TryNote(n)`. -/
  | tryNote (n : String)
  /-- `g.TryCurrency(n)`. -/
  | tryCurrency (n : String)
  /-- `g.TryQRDue(t)`. -/
  | tryQRDue (t : Time)

/-- The generator after one step. -/
def Op.apply (g : G) : Op → G
  | Op.setParam key val => SetParam g key val
  | Op.setName name => { g with Name := name }
  | Op.setMutable m => { g with Mutable := m }
  | Op.tryCountry code => (TryCountry g code).1
  | Op.tryAmount a => (TryAmount g a).1
  | Op.tryNote n => (TryNote g n).1
  | Op.tryCurrency n => (TryCurrency g n).1
  | Op.tryQRDue t => (TryQRDue g t).1

/-- The generator after a sequence of steps. -/
def run (g : G) (ops : List Op) : G := ops.foldl Op.apply g

/-! ## Auxiliary facts: patterns -/

theorem isDigit09_eq_isDigit (c : Char) : isDigit09 c = c.isDigit := by
  unfold isDigit09 Char.isDigit Char.toNat
  have h1 : (c.val ≥ 48) ↔ 48 ≤ c.val.toNat := by
    show (48 : UInt32) ≤ c.val ↔ _
    rw [UInt32.le_def]
    rfl
  have h2 : (c.val ≤ 57) ↔ c.val.toNat ≤ 57 := by
    rw [UInt32.le_def]
    rfl
  simp only [h1, h2]

theorem matchDigits_iff (lo hi : Nat) (cs : List Char) :
    matchDigits lo hi cs = true ↔
      lo ≤ cs.length ∧ cs.length ≤ hi ∧ ∀ c ∈ cs, c.isDigit = true := by
  induction cs generalizing lo hi with
  | nil => simp [matchDigits]
  | cons c cs ih =>
    cases hi with
    | zero => simp [matchDigits]
    | succ hi =>
      simp only [matchDigits, Bool.and_eq_true, ih, isDigit09_eq_isDigit, List.length_cons,
        List.mem_cons, forall_eq_or_imp]
      constructor
      · rintro ⟨h1, h2, h3, h4⟩
        exact ⟨by omega, by omega, h1, h4⟩
      · rintro ⟨h1, h2, h3, h4⟩
        exact ⟨h3, by omega, by omega, h4⟩

theorem re3Digit_iff (s : String) : re3Digit s = true ↔ IsDigits 3 3 s :=
  matchDigits_iff 3 3 s.data

theorem reAccount_iff (s : String) : reAccount s = true ↔ IsDigits 1 16 s :=
  matchDigits_iff 1 16 s.data

/-! ## Auxiliary facts: decimal text -/

theorem toDigitsCore_append (fuel : Nat) : ∀ (n : Nat) (ds : List Char),
    Nat.toDigitsCore 10 fuel n ds = Nat.toDigitsCore 10 fuel n [] ++ ds := by
  induction fuel with
  | zero => intro n ds; simp [Nat.toDigitsCore]
  | succ fuel ih =>
    intro n ds
    simp only [Nat.toDigitsCore]
    by_cases h : n / 10 = 0
    · simp [h]
    · simp only [h, if_false]
      rw [ih (n / 10) (Nat.digitChar (n % 10) :: ds), ih (n / 10) [Nat.digitChar (n % 10)]]
      simp

theorem toDigitsCore_fuel (f1 : Nat) : ∀ (f2 n : Nat), n < f1 → n < f2 →
    Nat.toDigitsCore 10 f1 n [] = Nat.toDigitsCore 10 f2 n [] := by
  induction f1 with
  | zero => intro f2 n h; omega
  | succ f1 ih =>
    intro f2 n h1 h2
    cases f2 with
    | zero => omega
    | succ f2 =>
      simp only [Nat.toDigitsCore]
      by_cases h : n / 10 = 0
      · simp [h]
      · simp only [h, if_false]
        rw [toDigitsCore_append f1, toDigitsCore_append f2, ih f2 (n / 10) (by omega) (by omega)]

theorem toDigits_lt_ten (n : Nat) (h : n < 10) : Nat.toDigits 10 n = [Nat.digitChar n] := by
  have h0 : n / 10 = 0 := by omega
  have h1 : n % 10 = n := by omega
  simp [Nat.toDigits, Nat.toDigitsCore, h0, h1]

theorem toDigits_step (n : Nat) (h : 10 ≤ n) :
    Nat.toDigits 10 n = Nat.toDigits 10 (n / 10) ++ [Nat.digitChar (n % 10)] := by
  have h0 : n / 10 ≠ 0 := by omega
  have h1 : Nat.toDigits 10 n = Nat.toDigitsCore 10 n (n / 10) [Nat.digitChar (n % 10)] := by
    simp only [Nat.toDigits, Nat.toDigitsCore, h0, if_false]
  rw [h1, toDigitsCore_append, toDigitsCore_fuel n (n / 10 + 1) (n / 10) (by omega) (by omega)]
  rfl

theorem digitChar_lt_ten (d : Nat) (h : d < 10) :
    (Nat.digitChar d).isDigit = true ∧ (Nat.digitChar d).toNat = 48 + d := by
  interval_cases d <;> decide


theorem toDigits_props (n : Nat) :
    (∀ c ∈ Nat.toDigits 10 n, c.isDigit = true) ∧
    (Nat.toDigits 10 n).foldl (fun a c => 10 * a + (c.toNat - 48)) 0 = n ∧
    (0 < n → (Nat.toDigits 10 n).head? ≠ some '0') ∧
    Nat.toDigits 10 n ≠ [] := by
  induction n using Nat.strong_induction_on with
  | _ n ih =>
    by_cases h : n < 10
    · rw [toDigits_lt_ten n h]
      have hd := digitChar_lt_ten n h
      refine ⟨by simpa using hd.1, by simp [hd.2], ?_, by simp⟩
      intro hn
      simp only [List.head?_cons, ne_eq, Option.some.injEq]
      intro hc
      have := congrArg Char.toNat hc
      rw [hd.2] at this
      have h48 : ('0' : Char).toNat = 48 := by decide
      omega
    · have hstep := toDigits_step n (by omega)
      obtain ⟨i1, i2, i3, i4⟩ := ih (n / 10) (by omega)
      have hd := digitChar_lt_ten (n % 10) (by omega)
      rw [hstep]
      refine ⟨?_, ?_, ?_, by simp⟩
      · intro c hc
        rcases List.mem_append.1 hc with hc | hc
        · exact i1 c hc
        · simp only [List.mem_singleton] at hc
          rw [hc]
          exact hd.1
      · rw [List.foldl_append, i2]
        simp only [List.foldl_cons, List.foldl_nil, hd.2]
        omega
      · intro _
        rw [List.head?_append_of_ne_nil _ i4]
        exact i3 (by omega)

theorem toDigits_mul_ten (k : Nat) (h : 0 < k) :
    Nat.toDigits 10 (k * 10) = Nat.toDigits 10 k ++ ['0'] := by
  rw [toDigits_step (k * 10) (by omega)]
  have h1 : k * 10 / 10 = k := by omega
  have h2 : k * 10 % 10 = 0 := by omega
  rw [h1, h2]
  rfl

theorem repr_mul_hundred (k : Nat) (h : 0 < k) :
    Nat.repr (k * 100) = Nat.repr k ++ "00" := by
  have h1 : k * 100 = k * 10 * 10 := by omega
  apply String.ext
  simp only [Nat.repr, h1, toDigits_mul_ten (k * 10) (by omega), toDigits_mul_ten k h, String.data_append, List.asString]
  simp

theorem Itoa_ofNat (n : Nat) : Itoa (n : Int) = Nat.repr n := rfl

theorem repr_props (n : Nat) :
    (∀ c ∈ (Nat.repr n).data, c.isDigit = true) ∧ decimalValue (Nat.repr n) = n ∧
      (0 < n → (Nat.repr n).data.head? ≠ some '0') :=
  ⟨(toDigits_props n).1, (toDigits_props n).2.1, (toDigits_props n).2.2.1⟩

/-! ## Auxiliary facts: maps -/

theorem Entries.get_set_self (es : Entries) (k v : String) :
    Entries.get (Entries.set es k v) k = v := by
  induction es with
  | nil => simp [Entries.set, Entries.get]
  | cons e rest ih =>
    obtain ⟨k', v'⟩ := e
    by_cases h : k' = k
    · simp [Entries.set, Entries.get, h]
    · simp [Entries.set, Entries.get, h, ih]

theorem Entries.get_set_other (es : Entries) (k v x : String) (hx : x ≠ k) :
    Entries.get (Entries.set es k v) x = Entries.get es x := by
  induction es with
  | nil => simp [Entries.set, Entries.get, Ne.symm hx]
  | cons e rest ih =>
    obtain ⟨k', v'⟩ := e
    by_cases h : k' = k
    · subst h
      simp [Entries.set, Entries.get, Ne.symm hx]
    · by_cases h2 : k' = x
      · subst h2
        simp [Entries.set, Entries.get, h]
      · simp [Entries.set, Entries.get, h, h2, ih]

/-! ## Auxiliary facts: the order of strings -/

theorem bytesLess_irrefl (a : List Nat) : bytesLess a a = false := by
  induction a with
  | nil => rfl
  | cons x xs ih => simp [bytesLess, ih]

theorem bytesLess_asymm (a : List Nat) : ∀ b : List Nat,
    bytesLess a b = true → bytesLess b a = false := by
  induction a with
  | nil => intro b _; cases b <;> rfl
  | cons x xs ih =>
    intro b h
    cases b with
    | nil => simp [bytesLess] at h
    | cons y ys =>
      simp only [bytesLess] at h ⊢
      by_cases h1 : x < y
      · have h2 : ¬ y < x := by omega
        simp [h1, h2]
      · by_cases h2 : y < x
        · simp [h1, h2] at h
        · simp only [h1, h2, if_false] at h ⊢
          exact ih ys h

theorem bytesLess_connex (a : List Nat) : ∀ b : List Nat,
    bytesLess a b = false → bytesLess b a = false → a = b := by
  induction a with
  | nil =>
    intro b h _
    cases b with
    | nil => rfl
    | cons y ys => simp [bytesLess] at h
  | cons x xs ih =>
    intro b h h'
    cases b with
    | nil => simp [bytesLess] at h'
    | cons y ys =>
      simp only [bytesLess] at h h'
      by_cases h1 : x < y
      · simp [h1] at h
      · by_cases h2 : y < x
        · simp [h2] at h'
        · simp only [h1, h2, if_false] at h h'
          have hxy : x = y := by omega
          rw [hxy, ih ys h h']

theorem bytesLess_trans (a : List Nat) : ∀ b c : List Nat,
    bytesLess a b = true → bytesLess b c = true → bytesLess a c = true := by
  induction a with
  | nil =>
    intro b c _ h2
    cases c with
    | nil => cases b <;> simp [bytesLess] at h2
    | cons z zs => rfl
  | cons x xs ih =>
    intro b c h1 h2
    cases b with
    | nil => simp [bytesLess] at h1
    | cons y ys =>
      cases c with
      | nil => simp [bytesLess] at h2
      | cons z zs =>
        simp only [bytesLess] at h1 h2 ⊢
        by_cases hxy : x < y
        · by_cases hyz : y < z
          · have : x < z := by omega
            simp [this]
          · by_cases hzy : z < y
            · simp [hyz, hzy] at h2
            · have : x < z := by omega
              simp [this]
        · by_cases hyx : y < x
          · simp [hxy, hyx] at h1
          · simp only [hxy, hyx, if_false] at h1
            by_cases hyz : y < z
            · have : x < z := by omega
              simp [this]
            · by_cases hzy : z < y
              · simp [hyz, hzy] at h2
              · simp only [hyz, hzy, if_false] at h2
                have e1 : ¬ x < z := by omega
                have e2 : ¬ z < x := by omega
                simp only [e1, e2, if_false]
                exact ih ys zs h1 h2

theorem utf8EncodeRune_prefix (c d : Char) (xs ys : List Nat)
    (h : utf8EncodeRune c ++ xs = utf8EncodeRune d ++ ys) : c = d ∧ xs = ys := by
  have key : c.toNat = d.toNat ∧ xs = ys := by
    unfold utf8EncodeRune at h
    simp only at h
    split_ifs at h <;>
      simp only [List.cons_append, List.nil_append, List.cons.injEq] at h <;>
      first
        | (exfalso; omega)
        | (refine ⟨by omega, ?_⟩; simp only [h])
  refine ⟨?_, key.2⟩
  have := congrArg Char.ofNat key.1
  simpa using this

theorem utf8BytesOf_injective (a : List Char) : ∀ b : List Char,
    utf8BytesOf a = utf8BytesOf b → a = b := by
  have hne : ∀ (c : Char) (xs : List Nat), utf8EncodeRune c ++ xs ≠ [] := by
    intro c xs
    unfold utf8EncodeRune
    simp only
    split_ifs <;> simp
  induction a with
  | nil =>
    intro b h
    cases b with
    | nil => rfl
    | cons d ds => exact absurd h.symm (hne d _)
  | cons c cs ih =>
    intro b h
    cases b with
    | nil => exact absurd h (hne c _)
    | cons d ds =>
      obtain ⟨h1, h2⟩ := utf8EncodeRune_prefix c d _ _ h
      rw [h1, ih ds h2]

theorem utf8Bytes_injective (a b : String) (h : utf8Bytes a = utf8Bytes b) : a = b :=
  String.ext (utf8BytesOf_injective a.data b.data h)

instance strLE_isTotal : IsTotal String strLE :=
  ⟨fun a b => by
    unfold strLE strLess
    by_cases h : bytesLess (utf8Bytes b) (utf8Bytes a) = true
    · exact Or.inr (bytesLess_asymm _ _ h)
    · exact Or.inl (by simpa using h)⟩

instance strLE_isTrans : IsTrans String strLE :=
  ⟨fun a b c hab hbc => by
    unfold strLE strLess at hab hbc ⊢
    by_contra hca
    have hca' : bytesLess (utf8Bytes c) (utf8Bytes a) = true := by simpa using hca
    by_cases hbc' : bytesLess (utf8Bytes b) (utf8Bytes c) = true
    · have := bytesLess_trans _ _ _ hbc' hca'
      rw [this] at hab
      cases hab
    · have heq := bytesLess_connex _ _ hbc (by simpa using hbc')
      rw [heq, hab] at hca'
      cases hca'⟩

theorem strLess_of_strLE_of_ne (a b : String) (h : strLE a b) (hne : a ≠ b) :
    strLess a b = true := by
  by_contra hc
  have hc' : bytesLess (utf8Bytes a) (utf8Bytes b) = false := by
    simpa [strLess] using hc
  exact hne (utf8Bytes_injective a b (bytesLess_connex _ _ hc' h))

theorem sortStrings_perm (l : List String) : (sortStrings l).Perm l :=
  List.perm_insertionSort strLE l

theorem sortStrings_sorted (l : List String) : (sortStrings l).Sorted strLE :=
  List.sorted_insertionSort strLE l

theorem sortStrings_nodup (l : List String) (h : l.Nodup) : (sortStrings l).Nodup :=
  (sortStrings_perm l).nodup_iff.2 h

instance strLE_isAntisymm : IsAntisymm String strLE :=
  ⟨fun a b hab hba => utf8Bytes_injective a b (bytesLess_connex _ _ hba hab)⟩

/-- Any sorted arrangement of the keys is the one `sortStrings` returns: the
result does not depend on the sorting algorithm nor on the order in which the
keys were collected. -/
theorem sortStrings_unique (l l' : List String) (hp : l'.Perm l) (hs : l'.Sorted strLE) :
    l' = sortStrings l :=
  List.eq_of_perm_of_sorted (hp.trans (sortStrings_perm l).symm) hs (sortStrings_sorted l)

theorem sortStrings_strict (l : List String) (h : l.Nodup) :
    (sortStrings l).Pairwise (fun a b => strLess a b = true) := by
  have hs : (sortStrings l).Pairwise strLE := sortStrings_sorted l
  have hn : (sortStrings l).Pairwise (fun a b => a ≠ b) := sortStrings_nodup l h
  exact (hs.and hn).imp (fun hab => strLess_of_strLE_of_ne _ _ hab.1 hab.2)

theorem pair_sublist (l : List String) (a b : String) (hab : a ≠ b)
    (ha : a ∈ l) (hb : b ∈ l) : [a, b].Sublist l ∨ [b, a].Sublist l := by
  induction l with
  | nil => cases ha
  | cons x xs ih =>
    rcases List.mem_cons.1 ha with ha1 | ha1
    · rcases List.mem_cons.1 hb with hb1 | hb1
      · exact absurd (ha1.trans hb1.symm) hab
      · subst ha1
        exact Or.inl (List.Sublist.cons₂ _ (List.singleton_sublist.2 hb1))
    · rcases List.mem_cons.1 hb with hb1 | hb1
      · subst hb1
        exact Or.inr (List.Sublist.cons₂ _ (List.singleton_sublist.2 ha1))
      · rcases ih ha1 hb1 with h | h
        · exact Or.inl (List.Sublist.cons _ h)
        · exact Or.inr (List.Sublist.cons _ h)

/-! ## Auxiliary facts: the unsorted rendering -/

theorem Entries.get_of_mem (es : Entries) (h : es.keys.Nodup) (k v : String)
    (hm : (k, v) ∈ es) : Entries.get es k = v := by
  induction es with
  | nil => cases hm
  | cons e rest ih =>
    obtain ⟨k', v'⟩ := e
    have h' : k' ∉ Entries.keys rest ∧ (Entries.keys rest).Nodup := by
      simpa [Entries.keys] using h
    rcases List.mem_cons.1 hm with hm1 | hm1
    · cases hm1
      simp [Entries.get]
    · have hk : k ∈ Entries.keys rest := List.mem_map.2 ⟨(k, v), hm1, rfl⟩
      have hne : k' ≠ k := fun hkk => h'.1 (hkk ▸ hk)
      simp [Entries.get, hne, ih h'.2 hm1]

theorem dropLastByte_append_amp (H t : String) : dropLastByte (H ++ (t ++ "&")) = H ++ t := by
  apply String.ext
  have h : ("&" : String).data = [Char.ofNat 38] := rfl
  simp only [dropLastByte, String.data_append, h, ← List.append_assoc, List.dropLast_concat]

theorem dropLastByte_foldl (toks : List String) : ∀ H : String, toks ≠ [] →
    dropLastByte (toks.foldl (fun buf t => buf ++ (t ++ "&")) H) = H ++ Join toks "&" := by
  induction toks with
  | nil => intro H h; exact absurd rfl h
  | cons t rest ih =>
    intro H _
    cases rest with
    | nil => simpa [Join] using dropLastByte_append_amp H t
    | cons u rest =>
      simp only [List.foldl_cons] at ih ⊢
      rw [ih (H ++ (t ++ "&")) (by simp)]
      simp only [Join, String.append_assoc]

theorem stringBuf_eq (g : G) (it : Entries) :
    stringBuf g it =
      (it.map (fun kv => (if g.Mutable then "M" else "D") ++ kv.1 ++ "=" ++ kv.2)).foldl
        (fun buf t => buf ++ (t ++ "&")) (header g) := by
  simp only [stringBuf, List.foldl_map]

theorem utf8BytesOf_append (a b : List Char) :
    utf8BytesOf (a ++ b) = utf8BytesOf a ++ utf8BytesOf b := by
  induction a with
  | nil => rfl
  | cons c cs ih => simp [utf8BytesOf, ih]

theorem stringBuf_last (g : G) (it : Entries) :
    ∃ (pre : List Char) (c : Char), (stringBuf g it).data = pre ++ [c] ∧ c.toNat < 128 := by
  rcases List.eq_nil_or_concat it with h | ⟨l, kv, h⟩
  · subst h
    refine ⟨("TWQRP://" ++ g.Name ++ "/" ++ sprintfZeroD 3 g.country ++ "/" ++
      sprintfZeroD 2 g.typ ++ "/V1").data, Char.ofNat 63, ?_, by decide⟩
    have h : ("/V1?" : String).data = ("/V1" : String).data ++ [Char.ofNat 63] := rfl
    simp only [stringBuf, List.foldl_nil, header, String.data_append, h, List.append_assoc]
    rfl
  · subst h
    refine ⟨(stringBuf g l ++ ((if g.Mutable then "M" else "D") ++ kv.1 ++ "=" ++ kv.2)).data,
      Char.ofNat 38, ?_, by decide⟩
    have h : ("&" : String).data = [Char.ofNat 38] := rfl
    simp only [stringBuf, List.concat_eq_append, List.foldl_append, List.foldl_cons,
      List.foldl_nil, String.data_append, h, List.append_assoc]

/-- The text `dropLastByte` gives for `String()` has the bytes of the buffer
without the last one: the slice `b[:len(b)-1]`. -/
theorem StringIter_bytes (g : G) (it : Entries) :
    utf8Bytes (StringIter g it) = (utf8Bytes (stringBuf g it)).dropLast := by
  obtain ⟨pre, c, h, hc⟩ := stringBuf_last g it
  have he : utf8BytesOf [c] = [c.toNat] := by
    simp [utf8BytesOf, utf8EncodeRune, hc]
  simp only [StringIter, dropLastByte, utf8Bytes, h, List.dropLast_concat, utf8BytesOf_append,
    he]

/-! ## Auxiliary facts: the length in bytes -/

theorem utf8EncodeRune_length (c : Char) : (utf8EncodeRune c).length = c.utf8Size := by
  unfold utf8EncodeRune Char.utf8Size Char.toNat
  have h1 : (c.val ≤ UInt32.ofNatCore 127 (by decide)) ↔ c.val.toNat < 128 := by
    rw [UInt32.le_def]
    show c.val.toNat ≤ 127 ↔ _
    omega
  have h2 : (c.val ≤ UInt32.ofNatCore 2047 (by decide)) ↔ c.val.toNat < 2048 := by
    rw [UInt32.le_def]
    show c.val.toNat ≤ 2047 ↔ _
    omega
  have h3 : (c.val ≤ UInt32.ofNatCore 65535 (by decide)) ↔ c.val.toNat < 65536 := by
    rw [UInt32.le_def]
    show c.val.toNat ≤ 65535 ↔ _
    omega
  simp only [h1, h2, h3]
  split_ifs <;> rfl

theorem utf8BytesOf_length (cs : List Char) :
    (utf8BytesOf cs).length = String.utf8ByteSize.go cs := by
  induction cs with
  | nil => rfl
  | cons c cs ih =>
    simp only [utf8BytesOf, List.length_append, ih, utf8EncodeRune_length,
      String.utf8ByteSize.go]
    omega

/-- The length `len` computes is the UTF-8 size of the text. -/
theorem len_eq_utf8ByteSize (s : String) : len s = s.utf8ByteSize :=
  utf8BytesOf_length s.data

theorem Itoa_9 : Itoa 9 = "9" := by decide

theorem Itoa_10 : Itoa 10 = "10" := by decide

/-- What `SetParam` does to the map, key text by key text, and to the rest. -/
theorem SetParam_frame (g : G) (k : Int) (v : String) :
    (SetParam g k v).params.get (Itoa k) = v ∧
    Itoa k ∈ (SetParam g k v).params.keys ∧
    (∀ x : String, x ≠ Itoa k →
      (SetParam g k v).params.get x = g.params.get x ∧
      (x ∈ (SetParam g k v).params.keys ↔ x ∈ g.params.keys)) ∧
    (SetParam g k v).Name = g.Name ∧ (SetParam g k v).country = g.country ∧
    (SetParam g k v).typ = g.typ ∧ (SetParam g k v).Mutable = g.Mutable := by
  refine ⟨?_, ?_, ?_, rfl, rfl, rfl, rfl⟩
  · exact Entries.get_set_self _ _ _
  · exact (Entries.mem_keys_set _ _ _ _).2 (Or.inl rfl)
  · intro x hx
    refine ⟨Entries.get_set_other _ _ _ _ hx, ?_⟩
    simp only [SetParam, StrMap.set, StrMap.keys]
    rw [Entries.mem_keys_set]
    simp [hx]

/-! ## Auxiliary facts: evaluation on the fixed keys -/

theorem sortStrings_5_6 : sortStrings ["5", "6"] = ["5", "6"] := by decide

theorem sortStrings_5_6_1 : sortStrings ["5", "6", "1"] = ["1", "5", "6"] := by decide

theorem Itoa_1 : Itoa 1 = "1" := by decide

theorem Itoa_5 : Itoa 5 = "5" := by decide

theorem Itoa_6 : Itoa 6 = "6" := by decide

theorem sprintfZeroD_158 : sprintfZeroD 3 158 = "158" := by decide

theorem sprintfZeroD_2 : sprintfZeroD 2 2 = "02" := by decide

theorem zeroPad_length (wid : Nat) (s : String) (h : s.length ≤ wid) :
    (zeroPad wid s).length = wid := by
  unfold zeroPad
  rw [String.length_append]
  simp only [String.length, List.length_replicate] at h ⊢
  omega

/-- The transfer generator built from a valid bank code and a valid account
renders, once named, as the two tokens `D5` and `D6`. -/
theorem newTransfer_sorted (bankCode account name : String)
    (hb : re3Digit bankCode = true) (ha : reAccount account = true) :
    ∃ g, NewTransfer bankCode account = (some g, none) ∧ g.Mutable = false ∧
      SortedString { g with Name := name } =
        "TWQRP://" ++ name ++ "/158/02/V1?D5=" ++ bankCode ++ "&D6=" ++
          (String.mk (List.replicate (16 - account.length) '0') ++ account) := by
  have hnew : NewTransfer bankCode account =
      (some (add (SetParam
        { Name := "", country := 158, typ := 2, params := StrMap.empty, Mutable := false }
        5 bankCode) 6 (sprintfZeroS 16 account)), none) := by
    simp only [NewTransfer, hb, ha, Bool.not_true, Bool.false_eq_true, if_false]
  refine ⟨_, hnew, rfl, ?_⟩
  · simp only [SortedString, add, SetParam, StrMap.set, StrMap.empty, Entries.set,
      StrMap.keys, Entries.keys, Itoa_5, Itoa_6, header, sprintfZeroD_158, sprintfZeroD_2,
      token, StrMap.get, Entries.get]
    simp [sortStrings_5_6, Join, Entries.get, sprintfZeroS, zeroPad]
    apply String.ext
    simp [String.data_append]

/-! ## Auxiliary facts: the country -/

theorem Op.apply_country (g : G) (op : Op) (h : 1 ≤ g.country ∧ g.country ≤ 999) :
    1 ≤ (op.apply g).country ∧ (op.apply g).country ≤ 999 := by
  cases op with
  | setParam key val => exact h
  | setName name => exact h
  | setMutable m => exact h
  | tryCountry code =>
    by_cases hc : code < 1 ∨ code > 999
    · simpa only [Op.apply, TryCountry, hc, if_true] using h
    · simp only [Op.apply, TryCountry, hc, if_false]
      omega
  | tryAmount a =>
    by_cases hc : a < 1 ∨ a > 99999
    · simpa only [Op.apply, TryAmount, hc, if_true] using h
    · simpa only [Op.apply, TryAmount, hc, if_false] using h
  | tryNote n =>
    by_cases hc : len n > 19
    · simpa only [Op.apply, TryNote, hc, if_true] using h
    · simpa only [Op.apply, TryNote, hc, if_false] using h
  | tryCurrency n =>
    by_cases hc : re3Digit n = true
    · simpa only [Op.apply, TryCurrency, hc, Bool.not_true, Bool.false_eq_true, if_false] using h
    · simpa only [Op.apply, TryCurrency, hc, Bool.not_false, if_true] using h
  | tryQRDue t =>
    by_cases hc : t.IsZero = true
    · simpa only [Op.apply, TryQRDue, hc, if_true] using h
    · simpa only [Op.apply, TryQRDue, hc, if_false] using h

theorem run_country (ops : List Op) : ∀ g : G, 1 ≤ g.country ∧ g.country ≤ 999 →
    1 ≤ (run g ops).country ∧ (run g ops).country ≤ 999 := by
  induction ops with
  | nil => intro g h; exact h
  | cons op ops ih =>
    intro g h
    exact ih (op.apply g) (Op.apply_country g op h)

theorem newTransfer_country (b a : String) (g : G) (h : (NewTransfer b a).1 = some g) :
    g.country = 158 := by
  unfold NewTransfer at h
  by_cases hb : re3Digit b = true
  · simp only [hb, Bool.not_true, Bool.false_eq_true, if_false, Option.some.injEq] at h
    rw [← h]
    rfl
  · simp [hb] at h

theorem sprintfZeroD_three (c : Int) (h1 : 1 ≤ c) (h2 : c ≤ 999) :
    sprintfZeroD 3 c =
        String.mk (List.replicate (3 - (Nat.repr c.toNat).length) '0') ++ Nat.repr c.toNat ∧
      (sprintfZeroD 3 c).length = 3 ∧ ∀ x ∈ (sprintfZeroD 3 c).data, x.isDigit = true := by
  have hneg : ¬ c < 0 := by omega
  have habs : c.natAbs = c.toNat := by omega
  have heq : sprintfZeroD 3 c = zeroPad 3 (Nat.repr c.toNat) := by
    simp only [sprintfZeroD, hneg, if_false, habs]
  have hlen : (Nat.repr c.toNat).length ≤ 3 :=
    Nat.repr_length c.toNat 3 (by decide) (by omega)
  refine ⟨by rw [heq]; rfl, by rw [heq]; exact zeroPad_length 3 _ hlen, ?_⟩
  intro x hx
  rw [heq] at hx
  simp only [zeroPad, String.data_append, List.mem_append, List.mem_replicate] at hx
  rcases hx with hx | hx
  · rw [hx.2]
    decide
  · exact (repr_props c.toNat).1 x hx

theorem foldl_append_init (f : String × String → String) (it : Entries) : ∀ H : String,
    it.foldl (fun buf kv => buf ++ f kv) H = H ++ it.foldl (fun buf kv => buf ++ f kv) "" := by
  induction it with
  | nil =>
    intro H
    apply String.ext
    simp [String.data_append]
  | cons kv rest ih =>
    intro H
    simp only [List.foldl_cons]
    rw [ih (H ++ f kv), ih ("" ++ f kv)]
    apply String.ext
    simp [String.data_append]

theorem dropLastByte_append (A Y : String) (h : Y.data ≠ []) :
    dropLastByte (A ++ Y) = A ++ dropLastByte Y := by
  apply String.ext
  simp only [dropLastByte, String.data_append]
  exact List.dropLast_append_of_ne_nil _ h

/-- Both renderings start with `TWQRP://`, the name, `/`, the country text
and `/`. -/
theorem render_country_segment (g : G) :
    (∃ rest : String, SortedString g =
      "TWQRP://" ++ g.Name ++ "/" ++ sprintfZeroD 3 g.country ++ "/" ++ rest) ∧
    ∀ it : Entries, ∃ rest : String, StringIter g it =
      "TWQRP://" ++ g.Name ++ "/" ++ sprintfZeroD 3 g.country ++ "/" ++ rest := by
  constructor
  · refine ⟨sprintfZeroD 2 g.typ ++ "/V1?" ++ Join ((sortStrings g.params.keys).map
      (fun k => token (if g.Mutable then "M" else "D") g.params k)) "&", ?_⟩
    simp only [SortedString, header, String.append_assoc]
  · intro it
    rw [StringIter, stringBuf, foldl_append_init, header]
    generalize it.foldl
      (fun buf kv => buf ++ ((if g.Mutable then "M" else "D") ++ kv.1 ++ "=" ++ kv.2 ++ "&"))
      "" = X
    refine ⟨sprintfZeroD 2 g.typ ++ dropLastByte ("/V1?" ++ X), ?_⟩
    have hne : ("/V1?" ++ X).data ≠ [] := by
      simp [String.data_append]
    have h1 : "TWQRP://" ++ g.Name ++ "/" ++ sprintfZeroD 3 g.country ++ "/" ++
        sprintfZeroD 2 g.typ ++ "/V1?" ++ X =
        ("TWQRP://" ++ g.Name ++ "/" ++ sprintfZeroD 3 g.country ++ "/" ++
          sprintfZeroD 2 g.typ) ++ ("/V1?" ++ X) := by
      simp only [String.append_assoc]
    rw [h1, dropLastByte_append _ _ hne]
    simp only [String.append_assoc]

/-! ## Auxiliary facts: the key texts -/

theorem repr_data (n : Nat) : (Nat.repr n).data = Nat.toDigits 10 n := rfl

theorem repr_injective (m n : Nat) (h : Nat.repr m = Nat.repr n) : m = n := by
  have hm := (repr_props m).2.1
  rw [h, (repr_props n).2.1] at hm
  exact hm.symm

theorem repr_ne_minus (m n : Nat) : Nat.repr m ≠ "-" ++ Nat.repr n := by
  intro h
  have hd := congrArg String.data h
  have hmem : '-' ∈ (Nat.repr m).data := by
    rw [hd]
    simp [String.data_append]
  have := (repr_props m).1 '-' hmem
  revert this
  decide

/-- Distinct integers have distinct decimal texts. -/
theorem Itoa_injective (a b : Int) (h : Itoa a = Itoa b) : a = b := by
  cases a with
  | ofNat m =>
    cases b with
    | ofNat n =>
      simp only [Itoa] at h
      rw [repr_injective m n h]
    | negSucc n =>
      simp only [Itoa] at h
      exact absurd h (repr_ne_minus m (n + 1))
  | negSucc m =>
    cases b with
    | ofNat n =>
      simp only [Itoa] at h
      exact absurd h.symm (repr_ne_minus n (m + 1))
    | negSucc n =>
      simp only [Itoa] at h
      have hd := congrArg String.data h
      simp only [String.data_append, List.append_cancel_left_eq] at hd
      have := repr_injective (m + 1) (n + 1) (String.ext hd)
      have hmn : m = n := by omega
      rw [hmn]

/-! ## Auxiliary facts: the sorted rendering as a function of the map -/

/-- Two generators that agree on the scalar attributes, hold the same keys
and give the same value for every key have the same sorted rendering. -/
theorem SortedString_congr (g1 g2 : G) (hn : g1.Name = g2.Name)
    (hc : g1.country = g2.country) (ht : g1.typ = g2.typ) (hm : g1.Mutable = g2.Mutable)
    (hk : g1.params.keys.Perm g2.params.keys)
    (hget : ∀ k : String, g1.params.get k = g2.params.get k) :
    SortedString g1 = SortedString g2 := by
  have hs : sortStrings g1.params.keys = sortStrings g2.params.keys :=
    sortStrings_unique _ _ ((sortStrings_perm _).trans hk) (sortStrings_sorted _)
  have hf : (fun k => token (if g1.Mutable then "M" else "D") g1.params k) =
      (fun k => token (if g2.Mutable then "M" else "D") g2.params k) := by
    funext k
    simp only [token, hm, hget k]
  simp only [SortedString, header, hn, hc, ht, hs, hf]

theorem must_error_iff (g : G) (err : Option error) (e : error) :
    must g err = Except.error e ↔ err = some e := by
  cases err with
  | none => simp [must]
  | some e' => simp [must]

theorem must_ok_iff (g g' : G) (err : Option error) :
    must g err = Except.ok g' ↔ err = none ∧ g' = g := by
  cases err with
  | none =>
    simp only [must, Except.ok.injEq, true_and]
    exact eq_comm
  | some e' => simp [must]

/-! ## Construction of a transfer generator -/

/-- C1: for a bank code of exactly 3 ASCII digits, an account of 1 to 16
ASCII digits and any name, `NewTransfer` succeeds (a generator and a nil
error) with `Mutable` false, and once `Name` is set `SortedString()` is
`TWQRP://<name>/158/02/V1?D5=<bankCode>&D6=<P>`, where `P` is the account
preceded by zeros, of length exactly 16. -/
theorem C1_newTransfer_sortedString (bankCode account name : String)
    (hb : IsDigits 3 3 bankCode) (ha : IsDigits 1 16 account) :
    ∃ g P, NewTransfer bankCode account = (some g, none) ∧ g.Mutable = false ∧
      P = String.mk (List.replicate (16 - account.length) '0') ++ account ∧
      P.length = 16 ∧
      SortedString { g with Name := name } =
        "TWQRP://" ++ name ++ "/158/02/V1?D5=" ++ bankCode ++ "&D6=" ++ P := by
  obtain ⟨g, h1, h2, h3⟩ := newTransfer_sorted bankCode account name
    ((re3Digit_iff bankCode).2 hb) ((reAccount_iff account).2 ha)
  refine ⟨g, _, h1, h2, rfl, ?_, h3⟩
  have hlen := ha.2.1
  rw [String.length_append]
  simp only [String.length, List.length_replicate] at hlen ⊢
  omega

/-- C1, at the bank code and account of the repository's test. -/
theorem C1_newTransfer_sortedString_witness :
    IsDigits 3 3 "978" ∧ IsDigits 1 16 "089478" ∧
      ∃ g P, NewTransfer "978" "089478" = (some g, none) ∧ g.Mutable = false ∧
        P = String.mk (List.replicate (16 - "089478".length) '0') ++ "089478" ∧
        P.length = 16 ∧
        SortedString { g with Name := "test" } =
          "TWQRP://" ++ "test" ++ "/158/02/V1?D5=" ++ "978" ++ "&D6=" ++ P :=
  ⟨by decide, by decide,
    C1_newTransfer_sortedString "978" "089478" "test" (by decide) (by decide)⟩

/-- C2: for a valid bank code `c`, a valid account `a`, a name and an amount
`n` with `1 ≤ n ≤ 99999`, the calls `NewTransfer(c, a)`, `Name = name`,
`Amount(n)` do not panic and `SortedString()` is
`TWQRP://<name>/158/02/V1?D1=<decimal n*100>&D5=<c>&D6=<a padded to 16>`. -/
theorem C2_transfer_amount_sortedString (c a name : String) (n : Int)
    (hc : IsDigits 3 3 c) (ha : IsDigits 1 16 a) (h1 : 1 ≤ n) (h2 : n ≤ 99999) :
    ∃ g g', NewTransfer c a = (some g, none) ∧
      Amount { g with Name := name } n = Except.ok g' ∧
      SortedString g' =
        "TWQRP://" ++ name ++ "/158/02/V1?D1=" ++ Nat.repr (n.toNat * 100) ++ "&D5=" ++ c ++
          "&D6=" ++ (String.mk (List.replicate (16 - a.length) '0') ++ a) := by
  have hnew : NewTransfer c a =
      (some (add (SetParam
        { Name := "", country := 158, typ := 2, params := StrMap.empty, Mutable := false }
        5 c) 6 (sprintfZeroS 16 a)), none) := by
    simp only [NewTransfer, (re3Digit_iff c).2 hc, (reAccount_iff a).2 ha, Bool.not_true,
      Bool.false_eq_true, if_false]
  have hn : ¬ (n < 1 ∨ n > 99999) := by omega
  have hitoa : Itoa (n * 100) = Nat.repr (n.toNat * 100) := by
    have hcast : n * 100 = ((n.toNat * 100 : Nat) : Int) := by
      have := Int.toNat_of_nonneg (show 0 ≤ n by omega)
      push_cast
      omega
    rw [hcast, Itoa_ofNat]
  obtain ⟨g, hg⟩ : ∃ g : G, g = add (SetParam
      { Name := "", country := 158, typ := 2, params := StrMap.empty, Mutable := false }
      5 c) 6 (sprintfZeroS 16 a) := ⟨_, rfl⟩
  rw [← hg] at hnew
  refine ⟨g, add { g with Name := name } 1 (Itoa (n * 100)), hnew, ?_, ?_⟩
  · simp only [Amount, TryAmount, hn, if_false, must]
  · rw [hg]
    simp only [SortedString, add, SetParam, StrMap.set, StrMap.empty, Entries.set,
      StrMap.keys, Entries.keys, Itoa_1, Itoa_5, Itoa_6, header, sprintfZeroD_158,
      sprintfZeroD_2, token, StrMap.get, Entries.get, hitoa]
    simp [sortStrings_5_6_1, Join, Entries.get, sprintfZeroS, zeroPad]
    apply String.ext
    simp [String.data_append]

/-- C2, at the bank code, account, name and amount of the repository's test:
the rendering is the expected text of that test. -/
theorem C2_transfer_amount_sortedString_witness :
    (IsDigits 3 3 "978" ∧ IsDigits 1 16 "089478" ∧ (1 : Int) ≤ 100 ∧ (100 : Int) ≤ 99999) ∧
      (∃ g g', NewTransfer "978" "089478" = (some g, none) ∧
        Amount { g with Name := "test" } 100 = Except.ok g' ∧
        SortedString g' =
          "TWQRP://" ++ "test" ++ "/158/02/V1?D1=" ++ Nat.repr ((100 : Int).toNat * 100) ++
            "&D5=" ++ "978" ++ "&D6=" ++
            (String.mk (List.replicate (16 - "089478".length) '0') ++ "089478")) ∧
      "TWQRP://" ++ "test" ++ "/158/02/V1?D1=" ++ Nat.repr ((100 : Int).toNat * 100) ++
            "&D5=" ++ "978" ++ "&D6=" ++
            (String.mk (List.replicate (16 - "089478".length) '0') ++ "089478") =
        "TWQRP://test/158/02/V1?D1=10000&D5=978&D6=0000000000089478" :=
  ⟨⟨by decide, by decide, by decide, by decide⟩,
    C2_transfer_amount_sortedString "978" "089478" "test" 100 (by decide) (by decide)
      (by decide) (by decide),
    by decide⟩

/-- C3: when the bank code is not exactly 3 ASCII digits, whatever the
account, `NewTransfer` returns no generator and the error
`twqrp: invalid bank code`. -/
theorem C3_newTransfer_invalid_bankCode (bankCode account : String)
    (hb : ¬ IsDigits 3 3 bankCode) :
    NewTransfer bankCode account = (none, some "twqrp: invalid bank code") := by
  have h : re3Digit bankCode = false := by
    rw [← Bool.not_eq_true, re3Digit_iff]
    exact hb
  simp [NewTransfer, h]

/-- C3, at the too long bank code `9780` of the repository's test. -/
theorem C3_newTransfer_invalid_bankCode_witness :
    ¬ IsDigits 3 3 "9780" ∧
      NewTransfer "9780" "089478" = (none, some "twqrp: invalid bank code") :=
  ⟨by decide, C3_newTransfer_invalid_bankCode "9780" "089478" (by decide)⟩

/-- C4: when the bank code is exactly 3 ASCII digits and the account is not
1 to 16 ASCII digits, the error returned by `NewTransfer` is
`twqrp: invalid account`. -/
theorem C4_newTransfer_invalid_account (bankCode account : String)
    (hb : IsDigits 3 3 bankCode) (ha : ¬ IsDigits 1 16 account) :
    (NewTransfer bankCode account).2 = some "twqrp: invalid account" := by
  have h1 : re3Digit bankCode = true := (re3Digit_iff bankCode).2 hb
  have h2 : reAccount account = false := by
    rw [← Bool.not_eq_true, reAccount_iff]
    exact ha
  simp [NewTransfer, h1, h2]

/-- C4, at the account `abc123` of the repository's test. -/
theorem C4_newTransfer_invalid_account_witness :
    IsDigits 3 3 "978" ∧ ¬ IsDigits 1 16 "abc123" ∧
      (NewTransfer "978" "abc123").2 = some "twqrp: invalid account" :=
  ⟨by decide, by decide, C4_newTransfer_invalid_account "978" "abc123" (by decide) (by decide)⟩

/-- C5, as stated, fails: with the bank code `a12` and the account `abc123`
both invalid, the error is not `twqrp: invalid account`. -/
theorem C5_account_error_wins_counterexample :
    ¬ (∀ bankCode account : String, ¬ IsDigits 3 3 bankCode → ¬ IsDigits 1 16 account →
        (NewTransfer bankCode account).2 = some "twqrp: invalid account") := by
  intro h
  have h1 := h "a12" "abc123" (by decide) (by decide)
  revert h1
  decide

/-- C5, amended: when both the bank code and the account are invalid,
`NewTransfer` returns at the bank code check, with no generator and the error
`twqrp: invalid bank code`. -/
theorem C5_bankCode_error_first (bankCode account : String)
    (hb : ¬ IsDigits 3 3 bankCode) (_ha : ¬ IsDigits 1 16 account) :
    (NewTransfer bankCode account).1 = none ∧
      (NewTransfer bankCode account).2 = some "twqrp: invalid bank code" ∧
      (NewTransfer bankCode account).2 ≠ some "twqrp: invalid account" := by
  have h : re3Digit bankCode = false := by
    rw [← Bool.not_eq_true, re3Digit_iff]
    exact hb
  simp [NewTransfer, h]

/-- C5 amended, at the bank code `a12` and the account `abc123`. -/
theorem C5_bankCode_error_first_witness :
    ¬ IsDigits 3 3 "a12" ∧ ¬ IsDigits 1 16 "abc123" ∧
      (NewTransfer "a12" "abc123").1 = none ∧
      (NewTransfer "a12" "abc123").2 = some "twqrp: invalid bank code" ∧
      (NewTransfer "a12" "abc123").2 ≠ some "twqrp: invalid account" :=
  ⟨by decide, by decide, C5_bankCode_error_first "a12" "abc123" (by decide) (by decide)⟩

/-! ## The `Mutable` flag -/

/-- C6: for every generator the two renderings with `Mutable` false and
`Mutable` true have the same head `H` and the same keys and values `kvs` in
the same order (the keys in sorted order, each with its stored value); only
the letter before each key differs, `D` when false and `M` when true. The
transfer generator of the repository's test, named `test` and made mutable,
renders as `TWQRP://test/158/02/V1?M5=978&M6=0000000000089478`. -/
theorem C6_mutable_changes_prefix_only :
    (∀ g : G, ∃ (H : String) (kvs : List (String × String)),
      H = header g ∧
      kvs.map Prod.fst = sortStrings g.params.keys ∧
      (∀ kv ∈ kvs, kv.2 = g.params.get kv.1) ∧
      SortedString { g with Mutable := false } =
        H ++ Join (kvs.map (fun kv => "D" ++ kv.1 ++ "=" ++ kv.2)) "&" ∧
      SortedString { g with Mutable := true } =
        H ++ Join (kvs.map (fun kv => "M" ++ kv.1 ++ "=" ++ kv.2)) "&") ∧
    (NewTransfer "978" "089478").1.map
        (fun g => SortedString { g with Name := "test", Mutable := true }) =
      some "TWQRP://test/158/02/V1?M5=978&M6=0000000000089478" := by
  refine ⟨fun g => ?_, by decide⟩
  refine ⟨header g, (sortStrings g.params.keys).map (fun k => (k, g.params.get k)),
    rfl, ?_, ?_, ?_, ?_⟩
  · rw [List.map_map]
    exact List.map_id _
  · intro kv hkv
    obtain ⟨k, _, rfl⟩ := List.mem_map.1 hkv
    rfl
  · simp only [SortedString, header, token, List.map_map, Bool.false_eq_true, if_false]
    rfl
  · simp only [SortedString, header, token, List.map_map, if_true]
    rfl

/-! ## The amount -/

/-- C7: `TryAmount(n)` returns a nil error exactly when `1 ≤ n ≤ 99999`.
For `n ≤ 0` or `n > 99999` the error is `twqrp: invalid amount`. On success
field `1` holds the decimal text of `n*100`: a number between 100 and
9999900, written with digits only, without a leading zero, ending in `00`;
every other key keeps its presence and its value, and `Name`, `country`,
`typ` and `Mutable` are unchanged. -/
theorem C7_tryAmount (g : G) (n : Int) :
    ((TryAmount g n).2 = none ↔ 1 ≤ n ∧ n ≤ 99999) ∧
    (n ≤ 0 ∨ n > 99999 → (TryAmount g n).2 = some "twqrp: invalid amount") ∧
    (1 ≤ n ∧ n ≤ 99999 →
      ∃ text : String, (TryAmount g n).1.params.get "1" = text ∧
        text = Nat.repr (n.toNat * 100) ∧
        (decimalValue text : Int) = n * 100 ∧
        100 ≤ decimalValue text ∧ decimalValue text ≤ 9999900 ∧
        (∀ c ∈ text.data, c.isDigit = true) ∧
        text.data.head? ≠ some '0' ∧
        (∃ t : String, text = t ++ "00") ∧
        "1" ∈ (TryAmount g n).1.params.keys ∧
        (∀ k : String, k ≠ "1" →
          (TryAmount g n).1.params.get k = g.params.get k ∧
          (k ∈ (TryAmount g n).1.params.keys ↔ k ∈ g.params.keys)) ∧
        (TryAmount g n).1.Name = g.Name ∧ (TryAmount g n).1.country = g.country ∧
        (TryAmount g n).1.typ = g.typ ∧ (TryAmount g n).1.Mutable = g.Mutable) := by
  refine ⟨?_, ?_, ?_⟩
  · by_cases h : n < 1 ∨ n > 99999
    · simp only [TryAmount, h, if_true]
      constructor
      · intro h'
        cases h'
      · intro h'
        omega
    · simp only [TryAmount, h, if_false, true_iff]
      omega
  · intro h
    have h' : n < 1 ∨ n > 99999 := by omega
    simp only [TryAmount, h', if_true]
  · rintro ⟨h1, h2⟩
    have hn : ¬ (n < 1 ∨ n > 99999) := by omega
    have hto : ((n.toNat : Nat) : Int) = n := Int.toNat_of_nonneg (by omega)
    have hitoa : Itoa (n * 100) = Nat.repr (n.toNat * 100) := by
      have hcast : n * 100 = ((n.toNat * 100 : Nat) : Int) := by
        push_cast
        omega
      rw [hcast, Itoa_ofNat]
    have hpos : 0 < n.toNat := by omega
    obtain ⟨p1, p2, p3⟩ := repr_props (n.toNat * 100)
    have hstate : (TryAmount g n).1 = SetParam g 1 (Nat.repr (n.toNat * 100)) := by
      simp only [TryAmount, hn, if_false, add, hitoa]
    rw [hstate]
    refine ⟨_, ?_, rfl, ?_, ?_, ?_, p1, p3 (by omega), ⟨_, repr_mul_hundred _ hpos⟩,
      ?_, ?_, rfl, rfl, rfl, rfl⟩
    · simp only [SetParam, StrMap.set, StrMap.get, Itoa_1]
      exact Entries.get_set_self _ _ _
    · rw [p2]
      push_cast
      omega
    · rw [p2]
      omega
    · rw [p2]
      omega
    · simp only [SetParam, StrMap.set, StrMap.keys, Itoa_1]
      exact (Entries.mem_keys_set _ _ _ _).2 (Or.inl rfl)
    · intro k hk
      simp only [SetParam, StrMap.set, StrMap.get, StrMap.keys, Itoa_1]
      refine ⟨Entries.get_set_other _ _ _ _ hk, ?_⟩
      rw [Entries.mem_keys_set]
      simp [hk]

/-- C7, at the amounts 100 (accepted, field `1` is `10000`) and 0 and 100000
(rejected) on the generator `NewEmpty(2)`. -/
theorem C7_tryAmount_witness :
    ((1 : Int) ≤ 100 ∧ (100 : Int) ≤ 99999) ∧
      (∃ text : String, (TryAmount (NewEmpty 2) 100).1.params.get "1" = text ∧
        text = Nat.repr ((100 : Int).toNat * 100) ∧
        (decimalValue text : Int) = 100 * 100 ∧
        100 ≤ decimalValue text ∧ decimalValue text ≤ 9999900 ∧
        (∀ c ∈ text.data, c.isDigit = true) ∧
        text.data.head? ≠ some '0' ∧
        (∃ t : String, text = t ++ "00") ∧
        "1" ∈ (TryAmount (NewEmpty 2) 100).1.params.keys ∧
        (∀ k : String, k ≠ "1" →
          (TryAmount (NewEmpty 2) 100).1.params.get k = (NewEmpty 2).params.get k ∧
          (k ∈ (TryAmount (NewEmpty 2) 100).1.params.keys ↔ k ∈ (NewEmpty 2).params.keys)) ∧
        (TryAmount (NewEmpty 2) 100).1.Name = (NewEmpty 2).Name ∧
        (TryAmount (NewEmpty 2) 100).1.country = (NewEmpty 2).country ∧
        (TryAmount (NewEmpty 2) 100).1.typ = (NewEmpty 2).typ ∧
        (TryAmount (NewEmpty 2) 100).1.Mutable = (NewEmpty 2).Mutable) ∧
      (TryAmount (NewEmpty 2) 100).1.params.get "1" = "10000" ∧
      (TryAmount (NewEmpty 2) 0).2 = some "twqrp: invalid amount" ∧
      (TryAmount (NewEmpty 2) 100000).2 = some "twqrp: invalid amount" :=
  ⟨by decide, (C7_tryAmount (NewEmpty 2) 100).2.2 (by decide), by decide,
    (C7_tryAmount (NewEmpty 2) 0).2.1 (by decide),
    (C7_tryAmount (NewEmpty 2) 100000).2.1 (by decide)⟩

/-! ## Failed setters -/

/-- C8: when `TryCountry`, `TryAmount`, `TryNote`, `TryCurrency` or
`TryQRDue` returns an error, the generator after the call is the generator
before the call (name, country, type, mutability and the whole map), and so
`SortedString()` is unchanged. -/
theorem C8_failed_setter_leaves_state (g : G) :
    (∀ (code : Int) (e : error), (TryCountry g code).2 = some e →
      (TryCountry g code).1 = g ∧
        SortedString (TryCountry g code).1 = SortedString g) ∧
    (∀ (a : Int) (e : error), (TryAmount g a).2 = some e →
      (TryAmount g a).1 = g ∧ SortedString (TryAmount g a).1 = SortedString g) ∧
    (∀ (n : String) (e : error), (TryNote g n).2 = some e →
      (TryNote g n).1 = g ∧ SortedString (TryNote g n).1 = SortedString g) ∧
    (∀ (n : String) (e : error), (TryCurrency g n).2 = some e →
      (TryCurrency g n).1 = g ∧ SortedString (TryCurrency g n).1 = SortedString g) ∧
    (∀ (t : Time) (e : error), (TryQRDue g t).2 = some e →
      (TryQRDue g t).1 = g ∧ SortedString (TryQRDue g t).1 = SortedString g) := by
  refine ⟨?_, ?_, ?_, ?_, ?_⟩
  · intro code e h
    by_cases hc : code < 1 ∨ code > 999
    · simp only [TryCountry, hc, if_true, and_self]
    · simp [TryCountry, hc] at h
  · intro a e h
    by_cases hc : a < 1 ∨ a > 99999
    · simp only [TryAmount, hc, if_true, and_self]
    · simp [TryAmount, hc] at h
  · intro n e h
    by_cases hc : len n > 19
    · simp only [TryNote, hc, if_true, and_self]
    · simp [TryNote, hc] at h
  · intro n e h
    by_cases hc : re3Digit n = true
    · simp [TryCurrency, hc] at h
    · simp only [TryCurrency, hc, Bool.not_false, if_true, and_self]
  · intro t e h
    by_cases hc : t.IsZero = true
    · simp only [TryQRDue, hc, if_true, and_self]
    · simp [TryQRDue, hc] at h

/-- C8, at one rejected argument of each setter on the generator `NewEmpty(2)`
after `TryAmount(100)`: country 1000, amount 0, a note of 20 bytes, the
currency `90a` and the zero time. -/
theorem C8_failed_setter_leaves_state_witness :
    ((TryCountry (TryAmount (NewEmpty 2) 100).1 1000).2 = some "twqrp: invalid country code" ∧
      (TryCountry (TryAmount (NewEmpty 2) 100).1 1000).1 = (TryAmount (NewEmpty 2) 100).1) ∧
    ((TryAmount (TryAmount (NewEmpty 2) 100).1 0).2 = some "twqrp: invalid amount" ∧
      (TryAmount (TryAmount (NewEmpty 2) 100).1 0).1 = (TryAmount (NewEmpty 2) 100).1) ∧
    ((TryNote (TryAmount (NewEmpty 2) 100).1 "12345678901234567890").2 =
        some "twqrp: invalid note" ∧
      (TryNote (TryAmount (NewEmpty 2) 100).1 "12345678901234567890").1 =
        (TryAmount (NewEmpty 2) 100).1) ∧
    ((TryCurrency (TryAmount (NewEmpty 2) 100).1 "90a").2 =
        some "twqrp: invalid currency code" ∧
      (TryCurrency (TryAmount (NewEmpty 2) 100).1 "90a").1 = (TryAmount (NewEmpty 2) 100).1) ∧
    ((TryQRDue (TryAmount (NewEmpty 2) 100).1 ⟨true, "00010101000000"⟩).2 =
        some "twqrp: invalid qrcode due time" ∧
      (TryQRDue (TryAmount (NewEmpty 2) 100).1 ⟨true, "00010101000000"⟩).1 =
        (TryAmount (NewEmpty 2) 100).1) :=
  ⟨⟨by decide, ((C8_failed_setter_leaves_state _).1 1000 "twqrp: invalid country code" (by decide)).1⟩,
    ⟨by decide, ((C8_failed_setter_leaves_state _).2.1 0 "twqrp: invalid amount" (by decide)).1⟩,
    ⟨by decide, ((C8_failed_setter_leaves_state _).2.2.1 "12345678901234567890"
      "twqrp: invalid note" (by decide)).1⟩,
    ⟨by decide, ((C8_failed_setter_leaves_state _).2.2.2.1 "90a"
      "twqrp: invalid currency code" (by decide)).1⟩,
    ⟨by decide, ((C8_failed_setter_leaves_state _).2.2.2.2 ⟨true, "00010101000000"⟩
      "twqrp: invalid qrcode due time" (by decide)).1⟩⟩

/-! ## The order of the fields -/

/-- C9: in `SortedString()` the tokens follow the list `ks` of the keys of
the map, each key once, in strictly increasing byte-wise order of the key
texts; this is not the numeric order, since the text `10` is below the text
`2`, and a generator holding the keys `2` and `10` renders the token of `10`
before the token of `2`. The transfer generator of the repository's test,
named `test`, with `Currency("901")` renders as
`TWQRP://test/158/02/V1?D10=901&D5=978&D6=0000000000089478`. -/
theorem C9_sortedString_key_order :
    (∀ g : G, ∃ ks : List String,
      ks.Perm g.params.keys ∧ ks.Nodup ∧
      ks.Pairwise (fun a b => strLess a b = true) ∧
      (Itoa 2 ∈ g.params.keys → Itoa 10 ∈ g.params.keys → [Itoa 10, Itoa 2].Sublist ks) ∧
      SortedString g = header g ++
        Join (ks.map (fun k => (if g.Mutable then "M" else "D") ++ k ++ "=" ++ g.params.get k))
          "&") ∧
    strLess (Itoa 10) (Itoa 2) = true ∧
    SortedString (SetParam (SetParam (NewEmpty 2) 2 "b") 10 "a") =
      "TWQRP:///158/02/V1?D10=a&D2=b" ∧
    SortedString (SetParam (SetParam (NewEmpty 2) 10 "a") 2 "b") =
      "TWQRP:///158/02/V1?D10=a&D2=b" ∧
    (NewTransfer "978" "089478").1.bind
        (fun g => (Currency { g with Name := "test" } "901").toOption.map SortedString) =
      some "TWQRP://test/158/02/V1?D10=901&D5=978&D6=0000000000089478" := by
  refine ⟨fun g => ?_, by decide, by decide, by decide, by decide⟩
  have hstrict := sortStrings_strict g.params.keys g.params.nodup
  refine ⟨sortStrings g.params.keys, sortStrings_perm _, sortStrings_nodup _ g.params.nodup,
    hstrict, ?_, rfl⟩
  intro h2 h10
  have m2 : Itoa 2 ∈ sortStrings g.params.keys := (sortStrings_perm _).mem_iff.2 h2
  have m10 : Itoa 10 ∈ sortStrings g.params.keys := (sortStrings_perm _).mem_iff.2 h10
  rcases pair_sublist _ (Itoa 10) (Itoa 2) (by decide) m10 m2 with h | h
  · exact h
  · have hp := hstrict.sublist h
    simp only [List.pairwise_cons, List.mem_singleton, forall_eq] at hp
    exact absurd hp.1 (by decide)

/-! ## The unsorted rendering -/

/-- C10: for a generator with a non-empty map and any order `it` in which
the `range` loop visits the entries, `String()` is the same head as in
`SortedString()` followed by the tokens `<prefix><key>=<value>` of the visited
entries joined by `&` (nothing after the last token), and these tokens are a
rearrangement of the tokens of `SortedString()`; with exactly one field the
two renderings are equal. -/
theorem C10_string_same_tokens (g : G) (it : Entries)
    (hit : it.Perm g.params.entries) (hne : g.params.entries ≠ []) :
    ∃ toks sortedToks : List String,
      toks = it.map (fun kv => (if g.Mutable then "M" else "D") ++ kv.1 ++ "=" ++ kv.2) ∧
      sortedToks = (sortStrings g.params.keys).map
        (fun k => (if g.Mutable then "M" else "D") ++ k ++ "=" ++ g.params.get k) ∧
      StringIter g it = header g ++ Join toks "&" ∧
      SortedString g = header g ++ Join sortedToks "&" ∧
      toks.Perm sortedToks ∧
      (g.params.entries.length = 1 → StringIter g it = SortedString g) := by
  have hitne : it ≠ [] := fun h => hne (List.perm_nil.1 (h ▸ hit.symm))
  have hstr : StringIter g it = header g ++
      Join (it.map (fun kv => (if g.Mutable then "M" else "D") ++ kv.1 ++ "=" ++ kv.2))
        "&" := by
    rw [StringIter, stringBuf_eq]
    exact dropLastByte_foldl _ _ (by simpa using hitne)
  have hmap : it.map (fun kv => (if g.Mutable then "M" else "D") ++ kv.1 ++ "=" ++ kv.2) =
      (it.map Prod.fst).map
        (fun k => (if g.Mutable then "M" else "D") ++ k ++ "=" ++ g.params.get k) := by
    rw [List.map_map]
    apply List.map_congr_left
    intro kv hkv
    have hget := Entries.get_of_mem g.params.entries g.params.nodup kv.1 kv.2
      (hit.mem_iff.1 hkv)
    simp only [Function.comp, StrMap.get, hget]
  have hperm : (it.map (fun kv => (if g.Mutable then "M" else "D") ++ kv.1 ++ "=" ++ kv.2)).Perm
      ((sortStrings g.params.keys).map
        (fun k => (if g.Mutable then "M" else "D") ++ k ++ "=" ++ g.params.get k)) := by
    rw [hmap]
    exact ((hit.map Prod.fst).trans (sortStrings_perm g.params.keys).symm).map _
  refine ⟨_, _, rfl, rfl, hstr, rfl, hperm, ?_⟩
  intro hlen
  have hl : (it.map
      (fun kv => (if g.Mutable then "M" else "D") ++ kv.1 ++ "=" ++ kv.2)).length = 1 := by
    rw [List.length_map, hit.length_eq, hlen]
  obtain ⟨x, hx⟩ := List.length_eq_one.1 hl
  have hs : SortedString g = header g ++ Join ((sortStrings g.params.keys).map
      (fun k => (if g.Mutable then "M" else "D") ++ k ++ "=" ++ g.params.get k)) "&" := rfl
  rw [hx] at hperm
  rw [hstr, hs, hx, List.perm_singleton.1 hperm.symm]

/-- C10, at the transfer generator of the repository's test with the amount
100, visited in the order bank code, amount, account: the unsorted rendering
has the three tokens of the sorted rendering, in the order visited. -/
theorem C10_string_same_tokens_witness :
    (∃ g : G, NewTransfer "978" "089478" = (some g, none) ∧
      StringIter (TryAmount g 100).1
        [("5", "978"), ("1", "10000"), ("6", "0000000000089478")] =
        "TWQRP:///158/02/V1?D5=978&D1=10000&D6=0000000000089478" ∧
      SortedString (TryAmount g 100).1 =
        "TWQRP:///158/02/V1?D1=10000&D5=978&D6=0000000000089478" ∧
      ∃ toks sortedToks : List String,
        toks = [("5", "978"), ("1", "10000"), ("6", "0000000000089478")].map
          (fun kv => (if (TryAmount g 100).1.Mutable then "M" else "D") ++ kv.1 ++ "=" ++
            kv.2) ∧
        sortedToks = (sortStrings (TryAmount g 100).1.params.keys).map
          (fun k => (if (TryAmount g 100).1.Mutable then "M" else "D") ++ k ++ "=" ++
            (TryAmount g 100).1.params.get k) ∧
        StringIter (TryAmount g 100).1
            [("5", "978"), ("1", "10000"), ("6", "0000000000089478")] =
          header (TryAmount g 100).1 ++ Join toks "&" ∧
        SortedString (TryAmount g 100).1 = header (TryAmount g 100).1 ++ Join sortedToks "&" ∧
        toks.Perm sortedToks ∧
        ((TryAmount g 100).1.params.entries.length = 1 →
          StringIter (TryAmount g 100).1
              [("5", "978"), ("1", "10000"), ("6", "0000000000089478")] =
            SortedString (TryAmount g 100).1)) :=
  ⟨_, rfl, by decide, by decide,
    C10_string_same_tokens _ [("5", "978"), ("1", "10000"), ("6", "0000000000089478")]
      (by decide) (by decide)⟩

/-! ## The rendering of an empty map -/

/-- C11, at the generator `NewEmpty(2)` with no field set: the `range` loop
of `String()` visits nothing, the final slice removes the `?`, and the result
`TWQRP:///158/02/V1` differs from that of `SortedString()`, which is
`TWQRP:///158/02/V1?`. The same holds for every generator with an empty map:
`SortedString()` ends in `/V1?` and `String()` ends in `/V1`. -/
theorem C11_string_empty_map_drops_question_mark :
    ((NewEmpty 2).params.entries = [] ∧
      SortedString (NewEmpty 2) = "TWQRP:///158/02/V1?" ∧
      StringIter (NewEmpty 2) [] = "TWQRP:///158/02/V1" ∧
      StringIter (NewEmpty 2) [] ≠ SortedString (NewEmpty 2)) ∧
    (∀ (g : G) (it : Entries), g.params.entries = [] → it.Perm g.params.entries →
      SortedString g =
        "TWQRP://" ++ g.Name ++ "/" ++ sprintfZeroD 3 g.country ++ "/" ++
          sprintfZeroD 2 g.typ ++ "/V1?" ∧
      StringIter g it =
        "TWQRP://" ++ g.Name ++ "/" ++ sprintfZeroD 3 g.country ++ "/" ++
          sprintfZeroD 2 g.typ ++ "/V1" ∧
      StringIter g it ≠ SortedString g) := by
  refine ⟨by decide, ?_⟩
  intro g it hg hit
  rw [hg] at hit
  have hit' : it = [] := List.perm_nil.1 hit
  have hs : SortedString g =
      "TWQRP://" ++ g.Name ++ "/" ++ sprintfZeroD 3 g.country ++ "/" ++
        sprintfZeroD 2 g.typ ++ "/V1?" := by
    have hk : sortStrings g.params.keys = [] := by
      simp only [StrMap.keys, hg, Entries.keys, List.map_nil]
      rfl
    simp only [SortedString, hk, List.map_nil, Join, header]
    apply String.ext
    simp [String.data_append]
  have hu : StringIter g it =
      "TWQRP://" ++ g.Name ++ "/" ++ sprintfZeroD 3 g.country ++ "/" ++
        sprintfZeroD 2 g.typ ++ "/V1" := by
    rw [hit']
    simp only [StringIter, stringBuf, List.foldl_nil, header]
    rw [dropLastByte_append _ _ (by decide)]
    rfl
  refine ⟨hs, hu, ?_⟩
  rw [hs, hu]
  intro h
  have hl := congrArg String.length h
  simp only [String.length_append] at hl
  have h3 : ("/V1" : String).length = 3 := by decide
  have h4 : ("/V1?" : String).length = 4 := by decide
  omega

/-! ## The note -/

/-- C12: `TryNote(n)` returns a nil error exactly when `n` has at most 19
bytes; with 20 bytes or more the error is `twqrp: invalid note`. On success
field `9` holds `n` itself, every other key keeps its presence and its value,
and `Name`, `country`, `typ` and `Mutable` are unchanged. -/
theorem C12_tryNote (g : G) (n : String) :
    ((TryNote g n).2 = none ↔ n.utf8ByteSize ≤ 19) ∧
    (20 ≤ n.utf8ByteSize → (TryNote g n).2 = some "twqrp: invalid note") ∧
    (n.utf8ByteSize ≤ 19 →
      (TryNote g n).1.params.get "9" = n ∧
      "9" ∈ (TryNote g n).1.params.keys ∧
      (∀ k : String, k ≠ "9" →
        (TryNote g n).1.params.get k = g.params.get k ∧
        (k ∈ (TryNote g n).1.params.keys ↔ k ∈ g.params.keys)) ∧
      (TryNote g n).1.Name = g.Name ∧ (TryNote g n).1.country = g.country ∧
      (TryNote g n).1.typ = g.typ ∧ (TryNote g n).1.Mutable = g.Mutable) := by
  rw [← len_eq_utf8ByteSize]
  refine ⟨?_, ?_, ?_⟩
  · by_cases h : len n > 19
    · simp only [TryNote, h, if_true]
      constructor
      · intro h'
        cases h'
      · intro h'
        omega
    · simp only [TryNote, h, if_false, true_iff]
      omega
  · intro h
    have h' : len n > 19 := by omega
    simp only [TryNote, h', if_true]
  · intro h
    have h' : ¬ len n > 19 := by omega
    have hstate : (TryNote g n).1 = SetParam g 9 n := by
      simp only [TryNote, h', if_false]
    rw [hstate]
    have hf := SetParam_frame g 9 n
    rw [Itoa_9] at hf
    exact hf

/-- C12, at a note of 19 bytes (accepted and stored) and at a note of 20
bytes (rejected) on the generator `NewEmpty(2)`. -/
theorem C12_tryNote_witness :
    ("1234567890123456789".utf8ByteSize ≤ 19 ∧
      (TryNote (NewEmpty 2) "1234567890123456789").1.params.get "9" =
        "1234567890123456789") ∧
    (20 ≤ "12345678901234567890".utf8ByteSize ∧
      (TryNote (NewEmpty 2) "12345678901234567890").2 = some "twqrp: invalid note") :=
  ⟨⟨by decide, ((C12_tryNote (NewEmpty 2) "1234567890123456789").2.2 (by decide)).1⟩,
    ⟨by decide, (C12_tryNote (NewEmpty 2) "12345678901234567890").2.1 (by decide)⟩⟩

/-- C13, at a note of 7 characters of Chinese text: it has 7 code points,
so at most 19 characters, and 21 bytes, and `TryNote` rejects it with
`twqrp: invalid note`, leaving field `9` unset. -/
theorem C13_tryNote_rejects_seven_characters :
    "備註備註備註備".length = 7 ∧
    "備註備註備註備".utf8ByteSize = 21 ∧
    len "備註備註備註備" = 21 ∧
    (TryNote (NewEmpty 2) "備註備註備註備").2 = some "twqrp: invalid note" ∧
    (TryNote (NewEmpty 2) "備註備註備註備").1.params.keys = [] := by
  decide

/-! ## The country -/

/-- C14: `TryCountry(code)` returns a nil error exactly when
`1 ≤ code ≤ 999`, and then only `country` changes, to `code`. Any generator
obtained from `NewEmpty` or `NewTransfer` by a sequence of `SetParam`,
fallible setters and assignments to `Name` and `Mutable` has
`1 ≤ country ≤ 999`, and in both renderings the text between the name and the
type is that number preceded by zeros: exactly three decimal digits. -/
theorem C14_country_invariant :
    (∀ (g : G) (code : Int),
      ((TryCountry g code).2 = none ↔ 1 ≤ code ∧ code ≤ 999) ∧
      (1 ≤ code ∧ code ≤ 999 → (TryCountry g code).1 = { g with country := code })) ∧
    (∀ (g0 : G) (ops : List Op),
      ((∃ t : Int, g0 = NewEmpty t) ∨ ∃ b a : String, (NewTransfer b a).1 = some g0) →
      1 ≤ (run g0 ops).country ∧ (run g0 ops).country ≤ 999 ∧
      ∃ seg : String,
        seg = String.mk (List.replicate
          (3 - (Nat.repr (run g0 ops).country.toNat).length) '0') ++
            Nat.repr (run g0 ops).country.toNat ∧
        seg.length = 3 ∧ (∀ c ∈ seg.data, c.isDigit = true) ∧
        (∃ rest : String, SortedString (run g0 ops) =
          "TWQRP://" ++ (run g0 ops).Name ++ "/" ++ seg ++ "/" ++ rest) ∧
        ∀ it : Entries, ∃ rest : String, StringIter (run g0 ops) it =
          "TWQRP://" ++ (run g0 ops).Name ++ "/" ++ seg ++ "/" ++ rest) := by
  constructor
  · intro g code
    by_cases h : code < 1 ∨ code > 999
    · simp only [TryCountry, h, if_true]
      refine ⟨⟨fun h' => (by cases h'), fun h' => (by omega)⟩, fun h' => (by omega)⟩
    · simp only [TryCountry, h, if_false, true_iff, implies_true, and_true]
      omega
  · intro g0 ops h0
    have hstart : 1 ≤ g0.country ∧ g0.country ≤ 999 := by
      rcases h0 with ⟨t, ht⟩ | ⟨b, a, hba⟩
      · rw [ht]
        show (1 : Int) ≤ 158 ∧ (158 : Int) ≤ 999
        decide
      · rw [newTransfer_country b a g0 hba]
        decide
    have hc := run_country ops g0 hstart
    obtain ⟨s1, s2, s3⟩ := sprintfZeroD_three (run g0 ops).country hc.1 hc.2
    obtain ⟨r1, r2⟩ := render_country_segment (run g0 ops)
    refine ⟨hc.1, hc.2, sprintfZeroD 3 (run g0 ops).country, s1, s2, s3, r1, r2⟩

/-- C14, at the generator `NewEmpty(2)` after a rejected country 1000, the
country 36, a field and a name: the country is 36 and the renderings carry
`036`. -/
theorem C14_country_invariant_witness :
    (1 ≤ (run (NewEmpty 2) [Op.tryCountry 1000, Op.tryCountry 36, Op.setParam 7 "x",
        Op.setName "shop"]).country ∧
      (run (NewEmpty 2) [Op.tryCountry 1000, Op.tryCountry 36, Op.setParam 7 "x",
        Op.setName "shop"]).country ≤ 999) ∧
    SortedString (run (NewEmpty 2) [Op.tryCountry 1000, Op.tryCountry 36, Op.setParam 7 "x",
        Op.setName "shop"]) = "TWQRP://shop/036/02/V1?D7=x" :=
  ⟨⟨(C14_country_invariant.2 (NewEmpty 2) [Op.tryCountry 1000, Op.tryCountry 36,
      Op.setParam 7 "x", Op.setName "shop"] (Or.inl ⟨2, rfl⟩)).1,
    (C14_country_invariant.2 (NewEmpty 2) [Op.tryCountry 1000, Op.tryCountry 36,
      Op.setParam 7 "x", Op.setName "shop"] (Or.inl ⟨2, rfl⟩)).2.1⟩,
    by decide⟩

/-! ## The currency -/

/-- C15: `TryCurrency(n)` returns a nil error exactly when `n` is exactly 3
ASCII digits, and otherwise the error `twqrp: invalid currency code`. On
success field `10` holds `n` itself, every other key keeps its presence and
its value, and `Name`, `country`, `typ` and `Mutable` are unchanged. Texts
with a space in front, a newline at the end or full-width digits are
rejected. -/
theorem C15_tryCurrency :
    (∀ (g : G) (n : String),
      ((TryCurrency g n).2 = none ↔ IsDigits 3 3 n) ∧
      (¬ IsDigits 3 3 n → (TryCurrency g n).2 = some "twqrp: invalid currency code") ∧
      (IsDigits 3 3 n →
        (TryCurrency g n).1.params.get "10" = n ∧
        "10" ∈ (TryCurrency g n).1.params.keys ∧
        (∀ k : String, k ≠ "10" →
          (TryCurrency g n).1.params.get k = g.params.get k ∧
          (k ∈ (TryCurrency g n).1.params.keys ↔ k ∈ g.params.keys)) ∧
        (TryCurrency g n).1.Name = g.Name ∧ (TryCurrency g n).1.country = g.country ∧
        (TryCurrency g n).1.typ = g.typ ∧ (TryCurrency g n).1.Mutable = g.Mutable)) ∧
    (TryCurrency (NewEmpty 2) "901").2 = none ∧
    (TryCurrency (NewEmpty 2) " 901").2 = some "twqrp: invalid currency code" ∧
    (TryCurrency (NewEmpty 2) "901\n").2 = some "twqrp: invalid currency code" ∧
    (TryCurrency (NewEmpty 2) "９０１").2 = some "twqrp: invalid currency code" := by
  refine ⟨fun g n => ?_, by decide, by decide, by decide, by decide⟩
  by_cases h : re3Digit n = true
  · have hd : IsDigits 3 3 n := (re3Digit_iff n).1 h
    have hstate : TryCurrency g n = (SetParam g 10 n, none) := by
      simp only [TryCurrency, h, Bool.not_true, Bool.false_eq_true, if_false]
    rw [hstate]
    refine ⟨⟨fun _ => hd, fun _ => rfl⟩, fun hn => absurd hd hn, fun _ => ?_⟩
    have hf := SetParam_frame g 10 n
    rw [Itoa_10] at hf
    exact hf
  · have hd : ¬ IsDigits 3 3 n := fun hd => h ((re3Digit_iff n).2 hd)
    have hstate : TryCurrency g n = (g, some "twqrp: invalid currency code") := by
      simp only [TryCurrency, h, Bool.not_false, if_true]
    rw [hstate]
    exact ⟨⟨fun h' => (by cases h'), fun h' => absurd h' hd⟩, fun _ => rfl,
      fun h' => absurd h' hd⟩

/-! ## Raw fields -/

/-- C16: after `SetParam(k, v)` the field under `k` is `v`, also when `k`
held a value before; for every other integer key `k'` the key texts differ,
and the presence and the value of `k'` are unchanged; `Name`, `country`, `typ`
and `Mutable` are unchanged. -/
theorem C16_setParam_frame (g : G) (k : Int) (v : String) :
    (SetParam g k v).params.get (Itoa k) = v ∧
    Itoa k ∈ (SetParam g k v).params.keys ∧
    (∀ w : String, (SetParam (SetParam g k w) k v).params.get (Itoa k) = v) ∧
    (∀ k' : Int, k' ≠ k →
      Itoa k' ≠ Itoa k ∧
      (SetParam g k v).params.get (Itoa k') = g.params.get (Itoa k') ∧
      (Itoa k' ∈ (SetParam g k v).params.keys ↔ Itoa k' ∈ g.params.keys)) ∧
    (SetParam g k v).Name = g.Name ∧ (SetParam g k v).country = g.country ∧
    (SetParam g k v).typ = g.typ ∧ (SetParam g k v).Mutable = g.Mutable := by
  obtain ⟨f1, f2, f3, f4⟩ := SetParam_frame g k v
  refine ⟨f1, f2, fun w => (SetParam_frame (SetParam g k w) k v).1, ?_, f4⟩
  intro k' hk
  have hne : Itoa k' ≠ Itoa k := fun h => hk (Itoa_injective k' k h)
  exact ⟨hne, f3 (Itoa k') hne⟩

/-- C16, at the keys 1 and 10 of the generator `NewEmpty(2)`: writing key 1
leaves key 10 as it was. -/
theorem C16_setParam_frame_witness :
    (10 : Int) ≠ 1 ∧ Itoa 10 ≠ Itoa 1 ∧
      (SetParam (SetParam (NewEmpty 2) 10 "901") 1 "500").params.get (Itoa 10) =
        (SetParam (NewEmpty 2) 10 "901").params.get (Itoa 10) ∧
      (Itoa 10 ∈ (SetParam (SetParam (NewEmpty 2) 10 "901") 1 "500").params.keys ↔
        Itoa 10 ∈ (SetParam (NewEmpty 2) 10 "901").params.keys) :=
  ⟨by decide, (C16_setParam_frame (SetParam (NewEmpty 2) 10 "901") 1 "500").2.2.2.1 10
    (by decide)⟩

/-! ## The panicking setters -/

/-- C17: each of `Country`, `Amount`, `Note`, `Currency` and `QRDue` panics
with the value `e` exactly when its fallible form returns the error `e`, and
returns a generator exactly when the fallible form returns a nil error, that
generator being the one the fallible form leaves. -/
theorem C17_panicking_setters (g : G) :
    (∀ code : Int,
      (∀ e : error, Country g code = Except.error e ↔ (TryCountry g code).2 = some e) ∧
      (∀ g' : G, Country g code = Except.ok g' ↔
        (TryCountry g code).2 = none ∧ g' = (TryCountry g code).1)) ∧
    (∀ a : Int,
      (∀ e : error, Amount g a = Except.error e ↔ (TryAmount g a).2 = some e) ∧
      (∀ g' : G, Amount g a = Except.ok g' ↔
        (TryAmount g a).2 = none ∧ g' = (TryAmount g a).1)) ∧
    (∀ n : String,
      (∀ e : error, Note g n = Except.error e ↔ (TryNote g n).2 = some e) ∧
      (∀ g' : G, Note g n = Except.ok g' ↔
        (TryNote g n).2 = none ∧ g' = (TryNote g n).1)) ∧
    (∀ n : String,
      (∀ e : error, Currency g n = Except.error e ↔ (TryCurrency g n).2 = some e) ∧
      (∀ g' : G, Currency g n = Except.ok g' ↔
        (TryCurrency g n).2 = none ∧ g' = (TryCurrency g n).1)) ∧
    (∀ t : Time,
      (∀ e : error, QRDue g t = Except.error e ↔ (TryQRDue g t).2 = some e) ∧
      (∀ g' : G, QRDue g t = Except.ok g' ↔
        (TryQRDue g t).2 = none ∧ g' = (TryQRDue g t).1)) :=
  ⟨fun _ => ⟨fun _ => must_error_iff _ _ _, fun _ => must_ok_iff _ _ _⟩,
    fun _ => ⟨fun _ => must_error_iff _ _ _, fun _ => must_ok_iff _ _ _⟩,
    fun _ => ⟨fun _ => must_error_iff _ _ _, fun _ => must_ok_iff _ _ _⟩,
    fun _ => ⟨fun _ => must_error_iff _ _ _, fun _ => must_ok_iff _ _ _⟩,
    fun _ => ⟨fun _ => must_error_iff _ _ _, fun _ => must_ok_iff _ _ _⟩⟩

/-- C17, at the amounts 0 (panic with `twqrp: invalid amount`) and 100 (no
panic) on the generator `NewEmpty(2)`. -/
theorem C17_panicking_setters_witness :
    ((TryAmount (NewEmpty 2) 0).2 = some "twqrp: invalid amount" ∧
      Amount (NewEmpty 2) 0 = Except.error "twqrp: invalid amount") ∧
    ((TryAmount (NewEmpty 2) 100).2 = none ∧
      Amount (NewEmpty 2) 100 = Except.ok (TryAmount (NewEmpty 2) 100).1) :=
  ⟨⟨by decide, (((C17_panicking_setters (NewEmpty 2)).2.1 0).1 _).2 (by decide)⟩,
    ⟨by decide, (((C17_panicking_setters (NewEmpty 2)).2.1 100).2 _).2 ⟨by decide, rfl⟩⟩⟩

/-! ## Reproducible rendering -/

/-- C18: `SortedString()` gives the same text whatever the order in which
its `range` loop collects the keys, so two calls on the same generator agree,
and it is a function of the generator alone (it writes nothing). For two
distinct keys, setting one and then the other gives the same text as setting
them in the opposite order. -/
theorem C18_sortedString_reproducible :
    (∀ (g : G) (it1 it2 : Entries),
      it1.Perm g.params.entries → it2.Perm g.params.entries →
      SortedStringIter g it1 = SortedStringIter g it2 ∧
      SortedStringIter g it1 = SortedString g) ∧
    (∀ (g : G) (k1 k2 : Int) (v1 v2 : String), k1 ≠ k2 →
      SortedString (SetParam (SetParam g k1 v1) k2 v2) =
        SortedString (SetParam (SetParam g k2 v2) k1 v1)) := by
  constructor
  · intro g it1 it2 h1 h2
    have key : ∀ it : Entries, it.Perm g.params.entries →
        SortedStringIter g it = SortedString g := by
      intro it h
      have hs : sortStrings it.keys = sortStrings g.params.keys :=
        sortStrings_unique _ _ ((sortStrings_perm _).trans (h.map Prod.fst))
          (sortStrings_sorted _)
      simp only [SortedStringIter, SortedString, hs]
    exact ⟨(key it1 h1).trans (key it2 h2).symm, key it1 h1⟩
  · intro g k1 k2 v1 v2 hk
    have hne : Itoa k1 ≠ Itoa k2 := fun h => hk (Itoa_injective k1 k2 h)
    refine SortedString_congr _ _ rfl rfl rfl rfl ?_ ?_
    · refine (List.perm_ext_iff_of_nodup (StrMap.nodup _) (StrMap.nodup _)).2 ?_
      intro x
      simp only [SetParam, StrMap.set, StrMap.keys, Entries.mem_keys_set]
      tauto
    · intro x
      simp only [SetParam, StrMap.set, StrMap.get]
      by_cases hx1 : x = Itoa k1
      · rw [hx1, Entries.get_set_other _ _ _ _ hne, Entries.get_set_self,
          Entries.get_set_self]
      · by_cases hx2 : x = Itoa k2
        · rw [hx2, Entries.get_set_self, Entries.get_set_other _ _ _ _ hne.symm,
            Entries.get_set_self]
        · rw [Entries.get_set_other _ _ _ _ hx2, Entries.get_set_other _ _ _ _ hx1,
            Entries.get_set_other _ _ _ _ hx1, Entries.get_set_other _ _ _ _ hx2]

/-- C18, at the keys 2 and 10 on the generator `NewEmpty(2)`, and at the two
orders of the entries of the resulting map. -/
theorem C18_sortedString_reproducible_witness :
    ((2 : Int) ≠ 10 ∧
      SortedString (SetParam (SetParam (NewEmpty 2) 2 "b") 10 "a") =
        SortedString (SetParam (SetParam (NewEmpty 2) 10 "a") 2 "b")) ∧
    (SortedStringIter (SetParam (SetParam (NewEmpty 2) 2 "b") 10 "a")
        [("10", "a"), ("2", "b")] =
      SortedStringIter (SetParam (SetParam (NewEmpty 2) 2 "b") 10 "a")
        [("2", "b"), ("10", "a")] ∧
      SortedStringIter (SetParam (SetParam (NewEmpty 2) 2 "b") 10 "a")
        [("10", "a"), ("2", "b")] =
      SortedString (SetParam (SetParam (NewEmpty 2) 2 "b") 10 "a")) :=
  ⟨⟨by decide, C18_sortedString_reproducible.2 (NewEmpty 2) 2 10 "b" "a" (by decide)⟩,
    C18_sortedString_reproducible.1 (SetParam (SetParam (NewEmpty 2) 2 "b") 10 "a")
      [("10", "a"), ("2", "b")] [("2", "b"), ("10", "a")] (by decide) (by decide)⟩

/-! ## No escaping -/

/-- C19: the generators `NewEmpty(2)` with `SetParam(1, "1&D2=2")` and
`NewEmpty(2)` with `SetParam(1, "1")`, `SetParam(2, "2")` have the same name,
country, type and mutability and different maps, and both render as
`TWQRP:///158/02/V1?D1=1&D2=2`. `TryNote` accepts the note `a&D1=5`, which
appears as it is in the rendering, and so does every note of at most 19 bytes
set on a generator without fields. -/
theorem C19_rendering_not_injective :
    (∃ g1 g2 : G, g1.Name = g2.Name ∧ g1.country = g2.country ∧ g1.typ = g2.typ ∧
      g1.Mutable = g2.Mutable ∧ g1.params.keys ≠ g2.params.keys ∧
      (∃ k : String, g1.params.get k ≠ g2.params.get k) ∧
      SortedString g1 = SortedString g2) ∧
    SortedString (SetParam (NewEmpty 2) 1 "1&D2=2") = "TWQRP:///158/02/V1?D1=1&D2=2" ∧
    SortedString (SetParam (SetParam (NewEmpty 2) 1 "1") 2 "2") =
      "TWQRP:///158/02/V1?D1=1&D2=2" ∧
    (TryNote (NewEmpty 2) "a&D1=5").2 = none ∧
    SortedString (TryNote (NewEmpty 2) "a&D1=5").1 = "TWQRP:///158/02/V1?D9=a&D1=5" ∧
    (∀ (t : Int) (n : String), n.utf8ByteSize ≤ 19 →
      (TryNote (NewEmpty t) n).2 = none ∧
      SortedString (TryNote (NewEmpty t) n).1 = header (NewEmpty t) ++ ("D9=" ++ n)) := by
  refine ⟨⟨SetParam (NewEmpty 2) 1 "1&D2=2", SetParam (SetParam (NewEmpty 2) 1 "1") 2 "2",
    rfl, rfl, rfl, rfl, by decide, ⟨"2", by decide⟩, by decide⟩,
    by decide, by decide, by decide, by decide, ?_⟩
  intro t n hn
  rw [← len_eq_utf8ByteSize] at hn
  have h' : ¬ len n > 19 := by omega
  have hstate : TryNote (NewEmpty t) n = (SetParam (NewEmpty t) 9 n, none) := by
    simp only [TryNote, h', if_false]
  rw [hstate]
  refine ⟨rfl, ?_⟩
  have hs : sortStrings ["9"] = ["9"] := by decide
  simp only [SortedString, SetParam, NewEmpty, StrMap.set, StrMap.empty, Entries.set,
    StrMap.keys, Entries.keys, Itoa_9, List.map_cons, List.map_nil, hs, token, StrMap.get,
    Entries.get, if_true, Join, Bool.false_eq_true, if_false, String.append_assoc]
  have hd : "D" ++ ("9" ++ ("=" ++ n)) = "D9=" ++ n := by
    apply String.ext
    simp [String.data_append]
  rw [hd]
  rfl

/-! ## The results of `NewTransfer` -/

/-- C20, at the bank code `978` and the account `abc123`: the bank code is
valid and the account is not, `NewTransfer` returns the error
`twqrp: invalid account` together with a generator, and that generator holds
`0000000000abc123` in field `6`. With the invalid bank code `a12` no
generator is returned. The same holds for every valid bank code and invalid
account: a generator comes with the error, holding the padded account. -/
theorem C20_newTransfer_generator_with_error :
    (IsDigits 3 3 "978" ∧ ¬ IsDigits 1 16 "abc123" ∧
      (NewTransfer "978" "abc123").2 = some "twqrp: invalid account" ∧
      (NewTransfer "978" "abc123").1.isSome = true ∧
      (NewTransfer "978" "abc123").1.map (fun g => g.params.get "6") =
        some "0000000000abc123" ∧
      (NewTransfer "a12" "abc123").2 = some "twqrp: invalid bank code" ∧
      (NewTransfer "a12" "abc123").1.isSome = false) ∧
    (∀ bankCode account : String, IsDigits 3 3 bankCode → ¬ IsDigits 1 16 account →
      ∃ g : G, NewTransfer bankCode account = (some g, some "twqrp: invalid account") ∧
        g.params.get "6" = sprintfZeroS 16 account) := by
  refine ⟨by decide, ?_⟩
  intro bankCode account hb ha
  have h1 : re3Digit bankCode = true := (re3Digit_iff bankCode).2 hb
  have h2 : reAccount account = false := by
    rw [← Bool.not_eq_true, reAccount_iff]
    exact ha
  refine ⟨add (SetParam
    { Name := "", country := 158, typ := 2, params := StrMap.empty, Mutable := false }
    5 bankCode) 6 (sprintfZeroS 16 account), ?_, ?_⟩
  · simp only [NewTransfer, h1, h2, Bool.not_true, Bool.false_eq_true, if_false,
      Bool.not_false, if_true]
  · have hf := (SetParam_frame (SetParam
      { Name := "", country := 158, typ := 2, params := StrMap.empty, Mutable := false }
      5 bankCode) 6 (sprintfZeroS 16 account)).1
    rw [Itoa_6] at hf
    exact hf

end Twqrp
